import Mathlib

/-!
# A shallow embedding of the tin-terrain greedy-insertion core (`TerraMesh.cpp`)

This file models the greedy-insertion triangulation engine of
`src/TerraMesh.cpp` (`TerraMesh::greedy_insert`, `TerraMesh::scan_triangle`,
`TerraMesh::scan_triangle_line`, `TerraMesh::scan_line_vertical`,
`TerraMesh::convert_to_mesh`) and proves properties of it.

Modelling conventions:
* `double` elevations, plane coefficients and interpolated scan coordinates are
  modelled as exact rationals (`ℚ`).  The sentinel `-DBL_MAX` initial value of
  a candidate's `importance` is modelled as `none : Option ℚ` (it compares
  below every representable threshold).
* Mesh vertices are lattice points: every vertex the program ever stores in a
  `glm::dvec2` is a grid corner or an inserted `Candidate` whose `x`/`y`
  fields are C++ `int`s, so points are modelled with integer coordinates and
  the C++ `double → int` conversions at those points are exact.
* The 2-D rasters (`m_used`, `m_token`, the elevation raster) are modelled as
  total functions `ℤ → ℤ → _`, indexed `value (row y) (col x)` as in the C++.
* Components of this repository that are used by `TerraMesh.cpp` but whose
  sources are not part of the excerpt (`Candidate::consider`, the candidate
  list `grab_greatest`, `compute_plane`, `order_triangle_points`, `ccw`,
  `init_mesh`/`insert` of the Delaunay mesh, `repair_point`) are modelled from
  the spec; each such definition carries a doc comment saying so.
-/

-- The arithmetic of `ℚ` is used both for reasoning and for kernel evaluation
-- of the model on concrete rasters; restore kernel-visible reducibility of the
-- four field operations (they are `@[irreducible]` upstream only to keep
-- `simp`/`rw` from unfolding them accidentally).
set_option allowUnsafeReducibility true in
attribute [semireducible] Rat.mul Rat.add Rat.sub Rat.inv

namespace TerraModel

/-- A mesh vertex in grid coordinates.  The C++ stores `glm::dvec2`, but every
stored vertex is a lattice point (grid corners and `Candidate`'s `int x, y`),
so coordinates are modelled as integers. -/
structure Point where
  x : ℤ
  y : ℤ
deriving DecidableEq, Repr

/-- A triangle of the evolving mesh, by its three vertices (grid coords). -/
structure Triangle where
  p1 : Point
  p2 : Point
  p3 : Point
deriving DecidableEq, Repr

/-- The `importance` field of a candidate: `none` models the `-DBL_MAX`
initializer, `some v` a computed absolute deviation `v`. -/
abbrev Importance := Option ℚ

/-- `importance < q` for a rational threshold `q`; `-DBL_MAX` is below every
threshold the program ever compares against. -/
def impLtQ : Importance → ℚ → Bool
  | none, _ => true
  | some v, q => decide (v < q)

/-- Strict comparison of two importance values (`-DBL_MAX` at the bottom). -/
def impLt : Importance → Importance → Bool
  | none, none => false
  | none, some _ => true
  | some _, none => false
  | some a, some b => decide (a < b)

/-- The candidate record of `TerraMesh.h`: grid cell `(x, y)`, elevation `z`,
absolute deviation `importance`, generation `token`, owning `triangle`, and
the boundary-candidate flag `edge`. -/
structure Candidate where
  x : ℤ
  y : ℤ
  z : ℚ
  importance : Importance
  token : ℕ
  triangle : Triangle
  edge : Bool
deriving DecidableEq, Repr

/-- Modelled from the spec: `Candidate::consider` (header not in src/) folds a
sample into the candidate, keeping the maximum-deviation sample seen so far;
ties are broken by first-seen, i.e. only a strictly greater deviation
replaces. -/
def Candidate.consider (c : Candidate) (x y : ℤ) (z diff : ℚ) : Candidate :=
  if impLtQ c.importance diff then { c with x := x, y := y, z := z, importance := some diff }
  else c

/-- The borrowed elevation raster: width, height, no-data sentinel, elevation
lookup `value (row y) (col x)`, and the cell→world maps used by
`convert_to_mesh`. -/
structure RasterDouble where
  width : ℤ
  height : ℤ
  noDataValue : ℚ
  value : ℤ → ℤ → ℚ
  col2x : ℤ → ℚ
  row2y : ℤ → ℚ

/-- `is_no_data`: the no-data sentinel is detected by exact comparison. -/
def isNoData (z noData : ℚ) : Bool := z == noData

/-- Plane coefficients: elevation at `(x, y)` is `a*x + b*y + c`; `a` and `b`
are the per-column and per-row increments used by the incremental scan. -/
structure Plane where
  a : ℚ
  b : ℚ
  c : ℚ
deriving Repr

def Plane.eval (p : Plane) (x y : ℚ) : ℚ := p.a * x + p.b * y + p.c

/-- Modelled from the spec: `compute_plane` (TerraUtils, not in src/) computes
the unique plane through the triangle's three `(x, y, elevation)` samples,
via the cross product of two edge vectors.  (For a degenerate triangle the
C++ divides by zero producing non-finite doubles; in `ℚ` division by zero
yields `0`, and the claims never depend on the coefficients in that case.) -/
def computePlane (t : Triangle) (r : RasterDouble) : Plane :=
  let z1 := r.value t.p1.y t.p1.x
  let z2 := r.value t.p2.y t.p2.x
  let z3 := r.value t.p3.y t.p3.x
  let ux : ℚ := (t.p2.x : ℚ) - (t.p1.x : ℚ)
  let uy : ℚ := (t.p2.y : ℚ) - (t.p1.y : ℚ)
  let uz : ℚ := z2 - z1
  let vx : ℚ := (t.p3.x : ℚ) - (t.p1.x : ℚ)
  let vy : ℚ := (t.p3.y : ℚ) - (t.p1.y : ℚ)
  let vz : ℚ := z3 - z1
  let nx := uy * vz - uz * vy
  let ny := uz * vx - ux * vz
  let nz := ux * vy - uy * vx
  { a := -nx / nz, b := -ny / nz, c := z1 + (nx * (t.p1.x : ℚ) + ny * (t.p1.y : ℚ)) / nz }

/-- Pointwise update of a 2-D grid modelled as a total function. -/
def setGrid {α : Type} (g : ℤ → ℤ → α) (y x : ℤ) (v : α) : ℤ → ℤ → α :=
  fun y' x' => if y' = y ∧ x' = x then v else g y' x'

/-- The mutable state of a `TerraMesh` during `greedy_insert`: the borrowed
raster `m_raster`, `m_max_error`, the token generation counter `m_counter`,
the `m_used` and `m_token` grids, the candidate list `m_candidates` and the
live-triangle list reached from `m_first_face`. -/
structure MeshState where
  raster : RasterDouble
  maxError : ℚ
  counter : ℕ
  used : ℤ → ℤ → Bool
  token : ℤ → ℤ → ℕ
  candidates : List Candidate
  triangles : List Triangle

/-- The loop body of `scan_triangle_line`: `n` remaining columns starting at
`x`, incremental plane elevation `z0` stepped by `dz = plane.a`. -/
def scanLineAuxH (used : ℤ → ℤ → Bool) (rv : ℤ → ℤ → ℚ) (nd : ℚ) (y : ℤ) (dz : ℚ) :
    ℕ → ℤ → ℚ → Candidate → Candidate
  | 0, _, _, c => c
  | n + 1, x, z0, c =>
    scanLineAuxH used rv nd y dz n (x + 1) (z0 + dz)
      (if used y x then c
       else if isNoData (rv y x) nd then c
       else c.consider x y (rv y x) |rv y x - z0|)

/-- `TerraMesh::scan_triangle_line`: scan row `y` for integer columns in
`[⌈min x1 x2⌉, ⌊max x1 x2⌋]`, folding unused, valid samples into `c`. -/
def scanTriangleLine (used : ℤ → ℤ → Bool) (rv : ℤ → ℤ → ℚ) (nd : ℚ)
    (plane : Plane) (y : ℤ) (x1 x2 : ℚ) (c : Candidate) : Candidate :=
  let startx : ℤ := ⌈min x1 x2⌉
  let endx : ℤ := ⌊max x1 x2⌋
  if startx > endx then c
  else scanLineAuxH used rv nd y plane.a (endx + 1 - startx).toNat startx
    (plane.eval (startx : ℚ) (y : ℚ)) c

/-- The loop body of `scan_line_vertical`, stepping rows by `dz = plane.b`. -/
def scanLineAuxV (used : ℤ → ℤ → Bool) (rv : ℤ → ℤ → ℚ) (nd : ℚ) (x : ℤ) (dz : ℚ) :
    ℕ → ℤ → ℚ → Candidate → Candidate
  | 0, _, _, c => c
  | n + 1, y, z0, c =>
    scanLineAuxV used rv nd x dz n (y + 1) (z0 + dz)
      (if used y x then c
       else if isNoData (rv y x) nd then c
       else c.consider x y (rv y x) |rv y x - z0|)

/-- `TerraMesh::scan_line_vertical`: scan column `x` for integer rows in
`[⌈min y1 y2⌉, ⌊max y1 y2⌋]`. -/
def scanLineVertical (used : ℤ → ℤ → Bool) (rv : ℤ → ℤ → ℚ) (nd : ℚ)
    (plane : Plane) (x : ℤ) (y1 y2 : ℚ) (c : Candidate) : Candidate :=
  let starty : ℤ := ⌈min y1 y2⌉
  let endy : ℤ := ⌊max y1 y2⌋
  if starty > endy then c
  else scanLineAuxV used rv nd x plane.b (endy + 1 - starty).toNat starty
    (plane.eval (x : ℚ) (starty : ℚ)) c

/-- The result of ordering a triangle's vertices by `y`. -/
structure Sorted3 where
  s0 : Point
  s1 : Point
  s2 : Point
deriving DecidableEq, Repr

/-- Second phase of the 3-element sort, assuming `a.y ≤ b.y`. -/
def sort3Aux (a b c : Point) : Sorted3 :=
  if c.y < b.y then (if c.y < a.y then ⟨c, a, b⟩ else ⟨a, c, b⟩) else ⟨a, b, c⟩

/-- Modelled from the spec: `order_triangle_points` (TerraUtils, not in src/)
orders the triangle's three vertices by their `y` coordinate (stable). -/
def sort3 (a b c : Point) : Sorted3 :=
  if b.y < a.y then sort3Aux b a c else sort3Aux a b c

/-- The pair of boundary-edge accumulators `candidate_v`, `candidate_h` of
`scan_triangle`. -/
structure EdgePair where
  cv : Candidate
  ch : Candidate
deriving DecidableEq, Repr

/-- One iteration of the boundary-edge loop of `scan_triangle` for the edge
`(p, q)`: a vertical boundary edge (both `x` on column `0` or `w-1`) is
scanned into `cv`; otherwise a horizontal boundary edge (both `y` on row `0`
or `h-1`) is scanned into `ch`. `w` and `h` stand for the C++ locals
`w = width-1`, `h = height-1`. -/
def edgeStep (used : ℤ → ℤ → Bool) (rv : ℤ → ℤ → ℚ) (nd : ℚ) (plane : Plane)
    (w h : ℤ) (acc : EdgePair) (p q : Point) : EdgePair :=
  if (p.x = 0 ∧ q.x = 0) ∨ (p.x = w ∧ q.x = w) then
    { acc with cv := scanLineVertical used rv nd plane p.x (p.y : ℚ) (q.y : ℚ) acc.cv }
  else if (p.y = 0 ∧ q.y = 0) ∨ (p.y = h ∧ q.y = h) then
    { acc with ch := scanTriangleLine used rv nd plane p.y (p.x : ℚ) (q.x : ℚ) acc.ch }
  else acc

/-- The boundary-edge phase of `scan_triangle` (lines 160–181): fresh
`candidate_v` (token `m_counter`) and `candidate_h` (token `m_counter + 1`)
folded over the three directed edges of the `y`-ordered triangle. -/
def edgeScan (st : MeshState) (t : Triangle) : EdgePair :=
  let plane := computePlane t st.raster
  let nd := st.raster.noDataValue
  let s := sort3 t.p1 t.p2 t.p3
  let w := st.raster.width - 1
  let h := st.raster.height - 1
  let e0 : EdgePair :=
    ⟨⟨0, 0, 0, none, st.counter, t, false⟩, ⟨0, 0, 0, none, st.counter + 1, t, false⟩⟩
  edgeStep st.used st.raster.value nd plane w h
    (edgeStep st.used st.raster.value nd plane w h
      (edgeStep st.used st.raster.value nd plane w h e0 s.s0 s.s1) s.s1 s.s2) s.s2 s.s0

/-- The row sweep of the interior scan: `n` rows starting at row `y`, edge
abscissae `x1`, `x2` stepped by `dx1`, `dx2` after each row. -/
def sweepRows (used : ℤ → ℤ → Bool) (rv : ℤ → ℤ → ℚ) (nd : ℚ) (plane : Plane)
    (dx1 dx2 : ℚ) : ℕ → ℤ → ℚ → ℚ → Candidate → Candidate
  | 0, _, _, _, c => c
  | n + 1, y, x1, x2, c =>
    sweepRows used rv nd plane dx1 dx2 n (y + 1) (x1 + dx1) (x2 + dx2)
      (scanTriangleLine used rv nd plane y x1 x2 c)

/-- The interior scan-conversion of `scan_triangle` (lines 202–240): the upper
sub-triangle rows `[v0_y, v1_y)` (skipped when `v1_y = v0_y`), then the lower
sub-triangle rows `[v1_y, v2_y]` (skipped when `v2_y = v1_y`), for vertices
`q0, q1, q2` ordered by `y`. -/
def interiorScan (used : ℤ → ℤ → Bool) (rv : ℤ → ℤ → ℚ) (nd : ℚ) (plane : Plane)
    (q0 q1 q2 : Point) (c : Candidate) : Candidate :=
  let dx2 : ℚ := ((q2.x : ℚ) - (q0.x : ℚ)) / ((q2.y : ℚ) - (q0.y : ℚ))
  let c1 :=
    if q1.y ≠ q0.y then
      let dx1 : ℚ := ((q1.x : ℚ) - (q0.x : ℚ)) / ((q1.y : ℚ) - (q0.y : ℚ))
      sweepRows used rv nd plane dx1 dx2 (q1.y - q0.y).toNat q0.y (q0.x : ℚ) (q0.x : ℚ) c
    else c
  if q2.y ≠ q1.y then
    let dx1 : ℚ := ((q2.x : ℚ) - (q1.x : ℚ)) / ((q2.y : ℚ) - (q1.y : ℚ))
    sweepRows used rv nd plane dx1 dx2 (q2.y - q1.y + 1).toNat q1.y (q1.x : ℚ) (q0.x : ℚ) c1
  else c1

/-- `TerraMesh::scan_triangle`: boundary-edge candidates first; if either
found a sample, push them (with `edge := true`, writing their tokens) and
stop; otherwise scan-convert the interior and push the single interior
candidate.  The token counter advances by 2 on the boundary path and 3 on
the interior path, mirroring the three `m_counter++`. -/
def scanTriangle (st : MeshState) (t : Triangle) : MeshState :=
  let plane := computePlane t st.raster
  let nd := st.raster.noDataValue
  let s := sort3 t.p1 t.p2 t.p3
  let ep := edgeScan st t
  if ep.cv.importance ≠ none ∨ ep.ch.importance ≠ none then
    let tok1 := if ep.cv.importance ≠ none then setGrid st.token ep.cv.y ep.cv.x ep.cv.token
                else st.token
    let tok2 := if ep.ch.importance ≠ none then setGrid tok1 ep.ch.y ep.ch.x ep.ch.token
                else tok1
    { st with
      token := tok2
      candidates := st.candidates ++
        ((if ep.cv.importance ≠ none then [{ ep.cv with edge := true }] else []) ++
         (if ep.ch.importance ≠ none then [{ ep.ch with edge := true }] else []))
      counter := st.counter + 2 }
  else
    let c0 : Candidate := ⟨0, 0, 0, none, st.counter + 2, t, false⟩
    let cI := interiorScan st.used st.raster.value nd plane s.s0 s.s1 s.s2 c0
    { st with
      token := setGrid st.token cI.y cI.x cI.token
      candidates := st.candidates ++ [cI]
      counter := st.counter + 3 }

/-- Modelled from the spec: the candidate list's `grab_greatest` removes and
returns the candidate with greatest importance (ties: the earliest pushed),
leaving the rest. -/
def grabGreatest : List Candidate → Option (Candidate × List Candidate)
  | [] => none
  | c :: cs =>
    match grabGreatest cs with
    | none => some (c, [])
    | some (b, rest) =>
      if impLt c.importance b.importance then some (b, c :: rest) else some (c, cs)

/-- Modelled from the spec: inserting point `p` into triangle `t` replaces `t`
by three triangles sharing `p` (one per edge of `t`). -/
def childTriangles (t : Triangle) (p : Point) : List Triangle :=
  [⟨t.p1, t.p2, p⟩, ⟨t.p2, t.p3, p⟩, ⟨t.p3, t.p1, p⟩]

/-- Modelled from the spec: the mesh replaces the (first) occurrence of the
split triangle by its three children in the live-triangle list. -/
def splitTriangle : List Triangle → Triangle → Point → List Triangle
  | [], _, _ => []
  | u :: rest, t, p =>
    if u = t then childTriangles t p ++ rest else u :: splitTriangle rest t p

/-- One iteration of the `greedy_insert` pop loop (lines 60–73) applied to the
already-popped candidate: discard if `importance < max_error * (edge ? 0.5 :
1.0)`; discard if the token grid's current value at `(x, y)` differs from the
stored token; otherwise mark the cell used and insert the point into its
owning triangle (the children are then re-scanned, per the spec's implicit
re-scan contract). -/
def greedyStep (st : MeshState) (c : Candidate) : MeshState :=
  if impLtQ c.importance (st.maxError * (if c.edge then (1 : ℚ)/2 else 1)) then st
  else if st.token c.y c.x ≠ c.token then st
  else
    let st1 : MeshState :=
      { st with
        used := setGrid st.used c.y c.x true
        triangles := splitTriangle st.triangles c.triangle ⟨c.x, c.y⟩ }
    List.foldl scanTriangle st1 (childTriangles c.triangle ⟨c.x, c.y⟩)

/-- The `while(!m_candidates.empty())` loop, with explicit fuel; `none` only
when the fuel runs out with a non-empty candidate list. -/
def runLoop : ℕ → MeshState → Option MeshState
  | 0, st => if st.candidates.isEmpty then some st else none
  | n + 1, st =>
    match grabGreatest st.candidates with
    | none => some st
    | some (c, rest) => runLoop n (greedyStep { st with candidates := rest } c)

/-- Cells of the square ring at Chebyshev distance `rho` around `(y, x)`. -/
def ringCells (y x : ℤ) (rho : ℕ) : List (ℤ × ℤ) :=
  (List.range (2 * rho + 1)).flatMap fun i =>
    (List.range (2 * rho + 1)).filterMap fun j =>
      let dy : ℤ := (i : ℤ) - rho
      let dx : ℤ := (j : ℤ) - rho
      if max dy.natAbs dx.natAbs = rho then some (y + dy, x + dx) else none

/-- First in-bounds, non-no-data sample among the given cells. -/
def firstValidIn (r : RasterDouble) : List (ℤ × ℤ) → Option ℚ
  | [] => none
  | (y, x) :: rest =>
    if 0 ≤ y ∧ y < r.height ∧ 0 ≤ x ∧ x < r.width ∧ ¬ isNoData (r.value y x) r.noDataValue
    then some (r.value y x)
    else firstValidIn r rest

/-- Search outward ring by ring for the nearest valid sample. -/
def nearestValidAux (r : RasterDouble) (y x : ℤ) : ℕ → ℕ → Option ℚ
  | 0, _ => none
  | fuel + 1, rho =>
    match firstValidIn r (ringCells y x rho) with
    | some z => some z
    | none => nearestValidAux r y x fuel (rho + 1)

/-- Modelled from the spec: `repair_point` (not in src/) replaces a corner
sample holding the no-data value by the nearest valid neighboring sample,
writing it into the raster so the four seed vertices are usable. -/
def repairPoint (r : RasterDouble) (x y : ℤ) : RasterDouble :=
  if isNoData (r.value y x) r.noDataValue then
    match nearestValidAux r y x (r.width + r.height).toNat 1 with
    | some z => { r with value := setGrid r.value y x z }
    | none => r
  else r

/-- Modelled from the spec: `init_mesh` builds two triangles covering the
rectangle from the four corner points `(0,0), (0,h-1), (w-1,h-1), (w-1,0)`. -/
def initMesh (w h : ℤ) : List Triangle :=
  [⟨⟨0, 0⟩, ⟨0, h - 1⟩, ⟨w - 1, h - 1⟩⟩, ⟨⟨0, 0⟩, ⟨w - 1, h - 1⟩, ⟨w - 1, 0⟩⟩]

/-- The seeding phase of `greedy_insert` (lines 16–49): repair the four
corners, reset `m_used`/`m_token`, mark the corners used, build the
two-triangle mesh. -/
def seedState (r : RasterDouble) (maxError : ℚ) : MeshState :=
  let w := r.width
  let h := r.height
  let r4 :=
    repairPoint (repairPoint (repairPoint (repairPoint r 0 0) 0 (h - 1)) (w - 1) (h - 1))
      (w - 1) 0
  let used0 :=
    setGrid (setGrid (setGrid (setGrid (fun _ _ => false) 0 0 true) (h - 1) 0 true)
      (h - 1) (w - 1) true) 0 (w - 1) true
  { raster := r4, maxError := maxError, counter := 0, used := used0,
    token := fun _ _ => 0, candidates := [], triangles := initMesh w h }

/-- `TerraMesh::greedy_insert`: seed, scan the two initial triangles, then run
the pop loop.  The fuel `7*W*H + |initial queue|` dominates the measure
`7 * (number of unused cells) + |queue|`, which strictly decreases at every
pop (each accepted insertion marks a previously-unused in-bounds cell used
and pushes at most 6 new candidates; a discarded pop shrinks the queue). -/
def greedyInsert (r : RasterDouble) (maxError : ℚ) : Option MeshState :=
  let st0 := seedState r maxError
  let st1 := List.foldl scanTriangle st0 st0.triangles
  runLoop (7 * (r.width * r.height).toNat + st1.candidates.length) st1

/-- An output vertex `(world x, world y, elevation)`. -/
abbrev Vertex := ℚ × ℚ × ℚ

/-- An output face: three indices into the vertex list. -/
abbrev Face := ℕ × ℕ × ℕ

/-- Accumulator of the vertex-collection loop of `convert_to_mesh`: vertices
so far, the `vertex_id` raster (allocated with `set_all(0)`), next index. -/
structure VertexAcc where
  verts : List Vertex
  vid : ℤ → ℤ → ℕ
  index : ℕ

/-- One cell of the row-major vertex-collection loop of `convert_to_mesh`:
a used cell with valid elevation is emitted and indexed; a used cell whose
elevation is the no-data value is skipped (`continue`). -/
def vertexFold (st : MeshState) (acc : VertexAcc) (cell : ℤ × ℤ) : VertexAcc :=
  let y := cell.1
  let x := cell.2
  if st.used y x then
    if isNoData (st.raster.value y x) st.raster.noDataValue then acc
    else
      { verts := acc.verts ++ [(st.raster.col2x x, st.raster.row2y y, st.raster.value y x)]
        vid := setGrid acc.vid y x acc.index
        index := acc.index + 1 }
  else acc

/-- The raster's cells in row-major order. -/
def rowMajorCells (w h : ℤ) : List (ℤ × ℤ) :=
  (List.range h.toNat).flatMap fun y => (List.range w.toNat).map fun x => ((y : ℤ), (x : ℤ))

def buildVertices (st : MeshState) : VertexAcc :=
  List.foldl (vertexFold st) ⟨[], fun _ _ => 0, 0⟩
    (rowMajorCells st.raster.width st.raster.height)

/-- Modelled from the spec: `ccw` is the signed-area orientation test. -/
def ccw (p1 p2 p3 : Point) : Bool :=
  decide (0 < (p2.x - p1.x) * (p3.y - p1.y) - (p2.y - p1.y) * (p3.x - p1.x))

/-- The face emitted for one live triangle: winding normalized via `ccw`,
vertex indices looked up in the `vertex_id` raster (0 where never assigned). -/
def faceOf (vid : ℤ → ℤ → ℕ) (t : Triangle) : Face :=
  if ¬ ccw t.p1 t.p2 t.p3 then
    (vid t.p1.y t.p1.x, vid t.p2.y t.p2.x, vid t.p3.y t.p3.x)
  else
    (vid t.p3.y t.p3.x, vid t.p2.y t.p2.x, vid t.p1.y t.p1.x)

/-- `TerraMesh::convert_to_mesh`: the flat vertex list and the face list. -/
def convertToMesh (st : MeshState) : List Vertex × List Face :=
  let acc := buildVertices st
  (acc.verts, st.triangles.map (faceOf acc.vid))

/-- Number of vertices produced by the full pipeline. -/
def vertexCount (r : RasterDouble) (e : ℚ) : Option ℕ :=
  (greedyInsert r e).map fun st => (convertToMesh st).1.length

/-- Number of faces produced by the full pipeline. -/
def faceCount (r : RasterDouble) (e : ℚ) : Option ℕ :=
  (greedyInsert r e).map fun st => (convertToMesh st).2.length

/-- The used cells (row-major) after the full pipeline. -/
def usedCells (r : RasterDouble) (e : ℚ) : Option (List (ℤ × ℤ)) :=
  (greedyInsert r e).map fun st =>
    (rowMajorCells st.raster.width st.raster.height).filter fun p => st.used p.1 p.2

/-- A concrete raster from row-major rational rows (out-of-range reads 0). -/
def gridOf (rows : List (List ℚ)) : ℤ → ℤ → ℚ := fun y x =>
  if 0 ≤ y ∧ 0 ≤ x then (rows.getD y.toNat []).getD x.toNat 0 else 0

def mkRaster (w h : ℤ) (rows : List (List ℚ)) (nd : ℚ) : RasterDouble :=
  { width := w, height := h, noDataValue := nd, value := gridOf rows,
    col2x := fun x => (x : ℚ), row2y := fun y => (y : ℚ) }

/-! ### Specification-side reference definitions and invariants -/

/-- `n` consecutive integers starting at `x`. -/
def intRangeGo : ℕ → ℤ → List ℤ
  | 0, _ => []
  | n + 1, x => x :: intRangeGo n (x + 1)

/-- The integer range `[lo, hi]` as a list (see `C7_scan_row` for the
characterization of its members). -/
def intRangeList (lo hi : ℤ) : List ℤ := intRangeGo (hi + 1 - lo).toNat lo

/-- Reference per-cell update of a row scan, written against the spec's words:
a used cell is skipped, a no-data sample is skipped, and otherwise the
absolute difference between the actual elevation and the plane-predicted
elevation at `(x, y)` replaces the candidate exactly when strictly greater
than its current importance. -/
def considerCell (used : ℤ → ℤ → Bool) (rv : ℤ → ℤ → ℚ) (nd : ℚ) (plane : Plane)
    (y : ℤ) (c : Candidate) (x : ℤ) : Candidate :=
  if used y x then c
  else if isNoData (rv y x) nd then c
  else if impLtQ c.importance |rv y x - plane.eval (x : ℚ) (y : ℚ)| then
    { c with x := x, y := y, z := rv y x,
             importance := some |rv y x - plane.eval (x : ℚ) (y : ℚ)| }
  else c

/-- `(x, y)` is a cell of the `[0, W] × [0, H]` rectangle (with `W = width-1`,
`H = height-1`). -/
def InRect (W H x y : ℤ) : Prop := 0 ≤ x ∧ x ≤ W ∧ 0 ≤ y ∧ y ≤ H

/-- All three vertices of `t` lie in the raster rectangle. -/
def TriInRect (W H : ℤ) (t : Triangle) : Prop :=
  InRect W H t.p1.x t.p1.y ∧ InRect W H t.p2.x t.p2.y ∧ InRect W H t.p3.x t.p3.y

/-- A candidate that carries a real importance points at an unused, in-bounds
cell (with respect to the given usage grid and rectangle). -/
def CandOK (W H : ℤ) (used : ℤ → ℤ → Bool) (c : Candidate) : Prop :=
  c.importance ≠ none → used c.y c.x = false ∧ InRect W H c.x c.y

/-- The number of in-bounds cells not yet marked used. -/
def unusedCount (st : MeshState) : ℕ :=
  (((Finset.Icc 0 (st.raster.height - 1)) ×ˢ (Finset.Icc 0 (st.raster.width - 1))).filter
    fun p : ℤ × ℤ => st.used p.1 p.2 = false).card

/-- The termination measure of the pop loop: each accepted insertion pays for
itself and for the at most 6 candidates pushed by the re-scan of the three
children; a discarded pop shrinks the queue. -/
def mu (st : MeshState) : ℕ := 7 * unusedCount st + st.candidates.length

/-- The loop invariant of `greedy_insert`: positive raster dimensions; queued
tokens are below the counter and pairwise distinct; a queued candidate with a
real importance whose token still matches the token grid points at an unused,
in-bounds cell; owning triangles lie in the raster rectangle. -/
structure Inv (st : MeshState) : Prop where
  wpos : 0 < st.raster.width
  hpos : 0 < st.raster.height
  tokLt : ∀ c ∈ st.candidates, c.token < st.counter
  tokNodup : st.candidates.Pairwise fun a b => a.token ≠ b.token
  fresh : ∀ c ∈ st.candidates, c.importance ≠ none → st.token c.y c.x = c.token →
    st.used c.y c.x = false ∧ InRect (st.raster.width - 1) (st.raster.height - 1) c.x c.y
  triRect : ∀ c ∈ st.candidates, TriInRect (st.raster.width - 1) (st.raster.height - 1) c.triangle

/-- What one `scan_triangle` call does to the state, as used by the
invariant-preservation and measure arguments. -/
structure ScanOut (st st' : MeshState) (t : Triangle) : Prop where
  used_eq : st'.used = st.used
  raster_eq : st'.raster = st.raster
  tris_eq : st'.triangles = st.triangles
  err_eq : st'.maxError = st.maxError
  ctr_lt : st.counter < st'.counter
  news : ∃ l, st'.candidates = st.candidates ++ l ∧ l.length ≤ 2 ∧
    (l.Pairwise fun a b => a.token ≠ b.token) ∧
    ∀ c ∈ l, st.counter ≤ c.token ∧ c.token < st'.counter ∧
      CandOK (st.raster.width - 1) (st.raster.height - 1) st.used c ∧ c.triangle = t
  tok_w : ∀ y x, st'.token y x = st.token y x ∨ st.counter ≤ st'.token y x

/-! ### Concrete inputs used by the claims -/

/-- The flat 3×3 grid of the spec's first concrete scenario. -/
def rFlat : RasterDouble := mkRaster 3 3 [[5, 5, 5], [5, 5, 5], [5, 5, 5]] (-9999)

/-- The 3×3 grid whose center cell is 100 above a flat surrounding of 0. -/
def rBump : RasterDouble := mkRaster 3 3 [[0, 0, 0], [0, 100, 0], [0, 0, 0]] (-9999)

/-- A 3×3 grid on which the vertex count is not monotone in `max_error`. -/
def rNonMono : RasterDouble := mkRaster 3 3 [[2, 2, 1], [1, 2, 3], [3, 0, 0]] (-9999)

/-- A 2×2 grid whose `(0,0)` corner holds the no-data value. -/
def rNd : RasterDouble := mkRaster 2 2 [[-9999, 0], [0, 0]] (-9999)

/-- A trivial all-zero 2×2 grid. -/
def rTiny : RasterDouble := mkRaster 2 2 [[0, 0], [0, 0]] (-9999)

/-- A seed triangle of the 2×2 grid; its edge `p1p2` lies on the boundary
column `x = 0` and its edge `p2p3` on the boundary row `y = 1 = H-1`. -/
def triC2 : Triangle := ⟨⟨0, 0⟩, ⟨0, 1⟩, ⟨1, 1⟩⟩

/-- A state over the 2×2 grid in which every cell is already used. -/
def stAllUsed : MeshState :=
  { raster := rTiny, maxError := 0, counter := 0, used := fun _ _ => true,
    token := fun _ _ => 0, candidates := [], triangles := [triC2] }

/-- A state over the 2×2 grid in which no cell is used. -/
def stNoneUsed : MeshState :=
  { raster := rTiny, maxError := 0, counter := 0, used := fun _ _ => false,
    token := fun _ _ => 0, candidates := [], triangles := [triC2] }

/-- A state over the 3×3 grid whose four corners are used and whose live
triangle list holds one triangle referencing the unused center cell. -/
def stC9 : MeshState :=
  { raster := rFlat, maxError := 0, counter := 0,
    used := fun y x => decide ((y = 0 ∨ y = 2) ∧ (x = 0 ∨ x = 2)),
    token := fun _ _ => 0, candidates := [],
    triangles := [⟨⟨0, 0⟩, ⟨1, 1⟩, ⟨2, 0⟩⟩] }

/-- An accepted candidate over `stAllUsed`-like state, for witnesses. -/
def cW1 : Candidate := ⟨1, 1, 0, some 5, 0, triC2, false⟩

/-- The zero plane, for witnesses. -/
def plane0 : Plane := ⟨0, 0, 0⟩

/-- A candidate of importance 1, for the threshold-monotonicity witness. -/
def cW6 : Candidate := ⟨0, 0, 0, some 1, 0, triC2, false⟩

/-- A fresh dummy candidate, for witnesses. -/
def c0W : Candidate := ⟨0, 0, 0, none, 0, triC2, false⟩

/-- Three distinct points on the horizontal line `y = 5` (a fully degenerate
triangle for the interior scan sweep). -/
def pA : Point := ⟨0, 5⟩

def pB : Point := ⟨3, 5⟩

def pC : Point := ⟨7, 5⟩

/-- A state accepting `cW1`: `max_error = 1`, matching token. -/
def stW1 : MeshState :=
  { raster := rTiny, maxError := 1, counter := 1, used := fun _ _ => false,
    token := fun _ _ => 0, candidates := [], triangles := [triC2] }

end TerraModel

namespace TerraModel

/-! ### Basic lemmas about the state components -/

theorem setGrid_self {α : Type} (g : ℤ → ℤ → α) (y x : ℤ) (v : α) :
    setGrid g y x v y x = v := by
  simp [setGrid]

theorem setGrid_ne {α : Type} (g : ℤ → ℤ → α) (y x y' x' : ℤ) (v : α)
    (h : ¬(y' = y ∧ x' = x)) : setGrid g y x v y' x' = g y' x' := by
  simp only [setGrid, if_neg h]

theorem scanTriangle_used (st : MeshState) (t : Triangle) :
    (scanTriangle st t).used = st.used := by
  unfold scanTriangle
  dsimp only
  split <;> rfl

theorem scanTriangle_raster (st : MeshState) (t : Triangle) :
    (scanTriangle st t).raster = st.raster := by
  unfold scanTriangle
  dsimp only
  split <;> rfl

theorem scanTriangle_tris (st : MeshState) (t : Triangle) :
    (scanTriangle st t).triangles = st.triangles := by
  unfold scanTriangle
  dsimp only
  split <;> rfl

theorem scanTriangle_err (st : MeshState) (t : Triangle) :
    (scanTriangle st t).maxError = st.maxError := by
  unfold scanTriangle
  dsimp only
  split <;> rfl

theorem foldl_scanTriangle_used (l : List Triangle) (st : MeshState) :
    (List.foldl scanTriangle st l).used = st.used := by
  induction l generalizing st with
  | nil => rfl
  | cons t ts ih => rw [List.foldl_cons, ih, scanTriangle_used]

theorem foldl_scanTriangle_raster (l : List Triangle) (st : MeshState) :
    (List.foldl scanTriangle st l).raster = st.raster := by
  induction l generalizing st with
  | nil => rfl
  | cons t ts ih => rw [List.foldl_cons, ih, scanTriangle_raster]

theorem foldl_scanTriangle_tris (l : List Triangle) (st : MeshState) :
    (List.foldl scanTriangle st l).triangles = st.triangles := by
  induction l generalizing st with
  | nil => rfl
  | cons t ts ih => rw [List.foldl_cons, ih, scanTriangle_tris]

theorem foldl_scanTriangle_err (l : List Triangle) (st : MeshState) :
    (List.foldl scanTriangle st l).maxError = st.maxError := by
  induction l generalizing st with
  | nil => rfl
  | cons t ts ih => rw [List.foldl_cons, ih, scanTriangle_err]

/-- Shared discard lemma: a popped candidate failing the importance check
leaves the state unchanged (the loop just continues). -/
theorem greedyStep_discard_importance (st : MeshState) (c : Candidate)
    (h : impLtQ c.importance (st.maxError * (if c.edge then (1 : ℚ)/2 else 1)) = true) :
    greedyStep st c = st := by
  unfold greedyStep
  rw [if_pos h]

/-! ### C1: order and effect of the pop-loop checks -/

/-- **C1**: every popped candidate is discarded when its importance is below
`max_error * (0.5 if edge else 1.0)` — regardless of its token; a candidate
surviving that check is discarded when the token grid's current value at its
`(x, y)` differs from its stored token; and only a candidate surviving both
checks has its cell marked used and is inserted into its owning triangle
(which is split into its three children).  The three conjuncts mirror the
exact order of the checks in `greedy_insert`. -/
theorem C1_pop_checks (st : MeshState) (c : Candidate) :
    (impLtQ c.importance (st.maxError * (if c.edge then (1 : ℚ)/2 else 1)) = true →
      greedyStep st c = st) ∧
    (impLtQ c.importance (st.maxError * (if c.edge then (1 : ℚ)/2 else 1)) = false →
      st.token c.y c.x ≠ c.token → greedyStep st c = st) ∧
    (impLtQ c.importance (st.maxError * (if c.edge then (1 : ℚ)/2 else 1)) = false →
      st.token c.y c.x = c.token →
      (greedyStep st c).used c.y c.x = true ∧
      (greedyStep st c).triangles = splitTriangle st.triangles c.triangle ⟨c.x, c.y⟩) := by
  refine ⟨greedyStep_discard_importance st c, fun h1 h2 => ?_, fun h1 h2 => ?_⟩
  · unfold greedyStep
    rw [if_neg (by rw [h1]; simp), if_pos h2]
  · unfold greedyStep
    rw [if_neg (by rw [h1]; simp), if_neg (by simp [h2])]
    constructor
    · rw [foldl_scanTriangle_used]
      exact setGrid_self ..
    · rw [foldl_scanTriangle_tris]

/-- Witness for C1: a concrete accepted candidate has its cell marked used. -/
theorem C1_pop_checks_witness :
    impLtQ cW1.importance (stW1.maxError * (if cW1.edge then (1 : ℚ)/2 else 1)) = false ∧
    stW1.token cW1.y cW1.x = cW1.token ∧
    (greedyStep stW1 cW1).used cW1.y cW1.x = true := by
  exact ⟨by decide, by decide, ((C1_pop_checks stW1 cW1).2.2 (by decide) (by decide)).1⟩

/-! ### C5 and C4: the two concrete 3×3 scenarios -/

set_option maxRecDepth 40000 in
/-- **C5**: on the flat 3×3 grid with `max_error = 0.01` the pipeline yields
exactly 4 vertices and 2 faces, and only the four corner cells are ever
used (no interior point is inserted). -/
theorem C5_flat_grid :
    vertexCount rFlat (1/100) = some 4 ∧ faceCount rFlat (1/100) = some 2 ∧
    usedCells rFlat (1/100) = some [(0, 0), (0, 2), (2, 0), (2, 2)] := by
  decide

set_option maxRecDepth 40000 in
/-- Counterexample to **C4**: on the 3×3 grid with center elevation 100 over
a flat surrounding of 0 and `max_error = 1`, the pipeline yields 4 vertices,
not the 5 the claim states. -/
theorem C4_center_bump_cex :
    vertexCount rBump 1 ≠ some 5 ∧ vertexCount rBump 1 = some 4 := by
  decide

set_option maxRecDepth 40000 in
/-- **C4 (amended)**: on that grid the pipeline yields exactly 4 vertices (the
corners); the center is never inserted because both seed triangles touch the
raster boundary, so only boundary candidates of deviation 0 are produced and
all are discarded against the halved tolerance. -/
theorem C4_center_bump_amended :
    vertexCount rBump 1 = some 4 ∧ faceCount rBump 1 = some 2 ∧
    usedCells rBump 1 = some [(0, 0), (0, 2), (2, 0), (2, 2)] := by
  decide

set_option maxRecDepth 40000 in
/-- Counterexample to **C6**: on `rNonMono`, raising `max_error` from `3/2`
to `5/2` raises the vertex count from 6 to 7. -/
theorem C6_monotone_cex :
    ((3 : ℚ)/2 ≤ 5/2) ∧ vertexCount rNonMono (3/2) = some 6 ∧
    vertexCount rNonMono (5/2) = some 7 := by
  decide

end TerraModel

namespace TerraModel

/-! ### C2: boundary-edge scanning -/

set_option maxRecDepth 10000 in
/-- Counterexample to **C2**: `triC2`'s edge `p1p2` lies exactly on the
boundary column `x = 0` (and `p2p3` on the boundary row `y = H-1`), yet when
every cell of the raster is already used the boundary scans find no sample,
the interior IS scan-converted in the same pass, and an interior candidate
(with `edge = false`) is pushed. -/
theorem C2_boundary_cex :
    (triC2.p1.x = 0 ∧ triC2.p2.x = 0) ∧
    (triC2.p2.y = stAllUsed.raster.height - 1 ∧ triC2.p3.y = stAllUsed.raster.height - 1) ∧
    (scanTriangle stAllUsed triC2).candidates.length = 1 ∧
    ((scanTriangle stAllUsed triC2).candidates.all fun c => c.edge) = false := by
  decide

/-- **C2 (amended)**: when at least one boundary scan of the triangle found a
sample (i.e. `v_edge ∨ h_edge` holds), `scan_triangle` pushes at most one
vertical-boundary candidate and at most one horizontal-boundary candidate,
each with its `edge` flag set, and does not push an interior candidate;
without that proviso the claim fails (see the counterexample). -/
theorem C2_boundary_amended (st : MeshState) (t : Triangle)
    (h : (edgeScan st t).cv.importance ≠ none ∨ (edgeScan st t).ch.importance ≠ none) :
    (scanTriangle st t).candidates = st.candidates ++
      ((if (edgeScan st t).cv.importance ≠ none then [{ (edgeScan st t).cv with edge := true }]
        else []) ++
       (if (edgeScan st t).ch.importance ≠ none then [{ (edgeScan st t).ch with edge := true }]
        else [])) ∧
    (∀ c ∈ (scanTriangle st t).candidates, c ∈ st.candidates ∨ c.edge = true) ∧
    ((if (edgeScan st t).cv.importance ≠ none then [{ (edgeScan st t).cv with edge := true }]
      else []) ++
     (if (edgeScan st t).ch.importance ≠ none then [{ (edgeScan st t).ch with edge := true }]
      else [])).length ≤ 2 := by
  have hc : (scanTriangle st t).candidates = st.candidates ++
      ((if (edgeScan st t).cv.importance ≠ none then [{ (edgeScan st t).cv with edge := true }]
        else []) ++
       (if (edgeScan st t).ch.importance ≠ none then [{ (edgeScan st t).ch with edge := true }]
        else [])) := by
    unfold scanTriangle
    dsimp only
    rw [if_pos h]
  refine ⟨hc, ?_, ?_⟩
  · intro c hmem
    rw [hc] at hmem
    rcases List.mem_append.1 hmem with h' | h'
    · exact Or.inl h'
    · refine Or.inr ?_
      rcases List.mem_append.1 h' with h'' | h'' <;>
      · split at h''
        · simp only [List.mem_singleton] at h''
          subst h''
          rfl
        · simp at h''
  · split <;> split <;> simp

/-- Witness for C2 (amended): on the all-unused 2×2 state the boundary scan of
`triC2` finds a sample, and every pushed candidate is a boundary candidate. -/
theorem C2_boundary_amended_witness :
    ((edgeScan stNoneUsed triC2).cv.importance ≠ none ∨
      (edgeScan stNoneUsed triC2).ch.importance ≠ none) ∧
    (∀ c ∈ (scanTriangle stNoneUsed triC2).candidates, c ∈ stNoneUsed.candidates ∨
      c.edge = true) :=
  ⟨by decide, (C2_boundary_amended stNoneUsed triC2 (by decide)).2.1⟩

/-! ### C7: the row scan considers exactly the right cells -/

theorem Plane.eval_succ (p : Plane) (x : ℤ) (y : ℚ) :
    p.eval (x : ℚ) y + p.a = p.eval ((x + 1 : ℤ) : ℚ) y := by
  unfold Plane.eval
  push_cast
  ring

theorem intRangeGo_mem : ∀ (n : ℕ) (x z : ℤ), z ∈ intRangeGo n x ↔ x ≤ z ∧ z < x + n := by
  intro n
  induction n with
  | zero => intro x z; simp [intRangeGo]
  | succ n ih =>
    intro x z
    simp only [intRangeGo, List.mem_cons, ih (x + 1) z]
    omega

theorem scanLineAuxH_foldl (used : ℤ → ℤ → Bool) (rv : ℤ → ℤ → ℚ) (nd : ℚ)
    (plane : Plane) (y : ℤ) :
    ∀ (n : ℕ) (x : ℤ) (z0 : ℚ), z0 = plane.eval (x : ℚ) (y : ℚ) → ∀ c : Candidate,
      scanLineAuxH used rv nd y plane.a n x z0 c =
        List.foldl (considerCell used rv nd plane y) c (intRangeGo n x) := by
  intro n
  induction n with
  | zero => intro x z0 _ c; rfl
  | succ n ih =>
    intro x z0 hz c
    subst hz
    have hbody : (if used y x then c
        else if isNoData (rv y x) nd then c
        else c.consider x y (rv y x) |rv y x - plane.eval (x : ℚ) (y : ℚ)|) =
        considerCell used rv nd plane y c x := rfl
    have hstep : scanLineAuxH used rv nd y plane.a (n + 1) x (plane.eval (x : ℚ) (y : ℚ)) c =
        scanLineAuxH used rv nd y plane.a n (x + 1) (plane.eval (x : ℚ) (y : ℚ) + plane.a)
          (considerCell used rv nd plane y c x) := by
      rw [scanLineAuxH, hbody]
    rw [hstep, Plane.eval_succ,
      show intRangeGo (n + 1) x = x :: intRangeGo n (x + 1) from rfl, List.foldl_cons]
    exact ih (x + 1) _ rfl _

/-- **C7**: `scan_triangle_line` equals the reference fold that visits exactly
the integer columns in `[⌈min x1 x2⌉, ⌊max x1 x2⌋]` of row `y` and, per cell,
skips a used cell, skips a no-data sample, and otherwise replaces the
candidate exactly when `|actual − plane-predicted|` is strictly greater than
its current importance (ties keep the first-seen sample); see `considerCell`.
In particular no-data samples never become candidates and never contribute
error. -/
theorem C7_scan_row (used : ℤ → ℤ → Bool) (rv : ℤ → ℤ → ℚ) (nd : ℚ)
    (plane : Plane) (y : ℤ) (x1 x2 : ℚ) (c : Candidate) :
    scanTriangleLine used rv nd plane y x1 x2 c =
      List.foldl (considerCell used rv nd plane y) c
        (intRangeList ⌈min x1 x2⌉ ⌊max x1 x2⌋) ∧
    (∀ z : ℤ, z ∈ intRangeList ⌈min x1 x2⌉ ⌊max x1 x2⌋ ↔
      ⌈min x1 x2⌉ ≤ z ∧ z ≤ ⌊max x1 x2⌋) := by
  constructor
  · unfold scanTriangleLine intRangeList
    dsimp only
    split
    · rename_i hgt
      have h0 : (⌊max x1 x2⌋ + 1 - ⌈min x1 x2⌉).toNat = 0 := by omega
      rw [h0]
      rfl
    · exact scanLineAuxH_foldl used rv nd plane y _ _ _ rfl c
  · intro z
    unfold intRangeList
    rw [intRangeGo_mem]
    omega

/-! ### C8: degenerate scan spans are skipped -/

/-- **C8**: in the interior scan sweep over the `y`-ordered vertices
`q0, q1, q2`, a zero-height upper sub-span (`q1.y = q0.y`) or lower sub-span
(`q2.y = q1.y`) causes exactly that scan segment to be skipped — the model is
total, so no error occurs — and a fully degenerate triangle
(`q0.y = q1.y = q2.y`) scans no interior row at all. -/
theorem C8_degenerate_spans (used : ℤ → ℤ → Bool) (rv : ℤ → ℤ → ℚ) (nd : ℚ)
    (plane : Plane) (q0 q1 q2 : Point) (c : Candidate) :
    (q1.y = q0.y → q2.y = q1.y → interiorScan used rv nd plane q0 q1 q2 c = c) ∧
    (q1.y = q0.y → q2.y ≠ q1.y →
      interiorScan used rv nd plane q0 q1 q2 c =
        sweepRows used rv nd plane (((q2.x : ℚ) - (q1.x : ℚ)) / ((q2.y : ℚ) - (q1.y : ℚ)))
          (((q2.x : ℚ) - (q0.x : ℚ)) / ((q2.y : ℚ) - (q0.y : ℚ)))
          (q2.y - q1.y + 1).toNat q1.y (q1.x : ℚ) (q0.x : ℚ) c) ∧
    (q2.y = q1.y → q1.y ≠ q0.y →
      interiorScan used rv nd plane q0 q1 q2 c =
        sweepRows used rv nd plane (((q1.x : ℚ) - (q0.x : ℚ)) / ((q1.y : ℚ) - (q0.y : ℚ)))
          (((q2.x : ℚ) - (q0.x : ℚ)) / ((q2.y : ℚ) - (q0.y : ℚ)))
          (q1.y - q0.y).toNat q0.y (q0.x : ℚ) (q0.x : ℚ) c) := by
  refine ⟨fun h01 h12 => ?_, fun h01 h12 => ?_, fun h12 h01 => ?_⟩
  · unfold interiorScan
    dsimp only
    rw [if_neg (by simp [h12]), if_neg (by simp [h01])]
  · unfold interiorScan
    dsimp only
    rw [if_pos h12, if_neg (by simp [h01])]
  · unfold interiorScan
    dsimp only
    rw [if_neg (by simp [h12]), if_pos h01]

/-- Witness for C8: a fully degenerate triangle on the row `y = 5` scans no
interior row: the candidate is returned unchanged. -/
theorem C8_degenerate_spans_witness :
    pB.y = pA.y ∧ pC.y = pB.y ∧
    interiorScan (fun _ _ => false) rTiny.value rTiny.noDataValue plane0 pA pB pC c0W = c0W :=
  ⟨by decide, by decide,
    (C8_degenerate_spans (fun _ _ => false) rTiny.value rTiny.noDataValue plane0 pA pB pC
      c0W).1 (by decide) (by decide)⟩

end TerraModel

namespace TerraModel

/-! ### C9: extraction silently emits default indices -/

set_option maxRecDepth 10000 in
/-- Counterexample to **C9**: over `stC9` the live triangle references the
never-used center cell `(1,1)`, and `convert_to_mesh` silently emits the face
`(0, 0, 1)` — the center's slot gets the `vertex_id` default `0` (aliasing
the first vertex) rather than being treated as a contract violation. -/
theorem C9_contract_cex :
    (⟨⟨0, 0⟩, ⟨1, 1⟩, ⟨2, 0⟩⟩ : Triangle) ∈ stC9.triangles ∧
    stC9.used 1 1 = false ∧
    (convertToMesh stC9).2 = [(0, 0, 1)] := by
  decide

theorem vertexFold_vid_zero (st : MeshState) :
    ∀ (cells : List (ℤ × ℤ)) (acc : VertexAcc),
      (∀ y x, (st.used y x = false ∨
        isNoData (st.raster.value y x) st.raster.noDataValue = true) → acc.vid y x = 0) →
      ∀ y x, (st.used y x = false ∨
        isNoData (st.raster.value y x) st.raster.noDataValue = true) →
      (List.foldl (vertexFold st) acc cells).vid y x = 0 := by
  intro cells
  induction cells with
  | nil => intro acc hacc y x h; exact hacc y x h
  | cons cell rest ih =>
    intro acc hacc y x h
    rw [List.foldl_cons]
    refine ih _ ?_ y x h
    intro y' x' h'
    unfold vertexFold
    dsimp only
    split
    · split
      · exact hacc y' x' h'
      · rename_i hused hval
        dsimp only
        rw [setGrid_ne]
        · exact hacc y' x' h'
        · rintro ⟨rfl, rfl⟩
          rcases h' with h' | h'
          · rw [h'] at hused; exact Bool.false_ne_true hused
          · rw [h'] at hval; exact hval (by rfl)
    · exact hacc y' x' h'

/-- **C9 (amended)**: a live triangle referencing a cell never marked used (or
holding the no-data value) is silently tolerated by `convert_to_mesh`: the
`vertex_id` raster still holds its `set_all(0)` default at that cell, and the
triangle's face is emitted with vertex index 0 for that cell. -/
theorem C9_default_index (st : MeshState) (t : Triangle) (ht : t ∈ st.triangles)
    (p : Point) (hp : p = t.p1 ∨ p = t.p2 ∨ p = t.p3)
    (hu : st.used p.y p.x = false ∨
      isNoData (st.raster.value p.y p.x) st.raster.noDataValue = true) :
    (buildVertices st).vid p.y p.x = 0 ∧
    faceOf (buildVertices st).vid t ∈ (convertToMesh st).2 := by
  constructor
  · exact vertexFold_vid_zero st _ _ (fun _ _ _ => rfl) p.y p.x hu
  · exact List.mem_map_of_mem (faceOf (buildVertices st).vid) ht

set_option maxRecDepth 10000 in
/-- Witness for C9 (amended) at the concrete state `stC9`. -/
theorem C9_default_index_witness :
    ((⟨⟨0, 0⟩, ⟨1, 1⟩, ⟨2, 0⟩⟩ : Triangle) ∈ stC9.triangles) ∧
    stC9.used 1 1 = false ∧
    (buildVertices stC9).vid 1 1 = 0 :=
  ⟨by decide, by decide,
    (C9_default_index stC9 ⟨⟨0, 0⟩, ⟨1, 1⟩, ⟨2, 0⟩⟩ (by decide) ⟨1, 1⟩
      (Or.inr (Or.inl (by decide))) (Or.inl (by decide))).1⟩

/-! ### C10: the elevation raster during the run -/

theorem repairPoint_id (r : RasterDouble) (x y : ℤ)
    (h : isNoData (r.value y x) r.noDataValue = false) : repairPoint r x y = r := by
  unfold repairPoint
  rw [if_neg (by simp [h])]

theorem greedyStep_raster (st : MeshState) (c : Candidate) :
    (greedyStep st c).raster = st.raster := by
  unfold greedyStep
  by_cases h1 : impLtQ c.importance (st.maxError * (if c.edge then (1 : ℚ)/2 else 1)) = true
  · rw [if_pos h1]
  · rw [if_neg h1]
    by_cases h2 : st.token c.y c.x ≠ c.token
    · rw [if_pos h2]
    · rw [if_neg h2]
      dsimp only
      rw [foldl_scanTriangle_raster]

theorem runLoop_raster : ∀ (n : ℕ) (st st' : MeshState),
    runLoop n st = some st' → st'.raster = st.raster := by
  intro n
  induction n with
  | zero =>
    intro st st' h
    unfold runLoop at h
    split at h
    · injection h with h; rw [← h]
    · exact absurd h (by simp)
  | succ n ih =>
    intro st st' h
    unfold runLoop at h
    cases hg : grabGreatest st.candidates with
    | none =>
      rw [hg] at h
      injection h with h
      rw [← h]
    | some pr =>
      obtain ⟨c, rest⟩ := pr
      rw [hg] at h
      have := ih _ _ h
      rw [this, greedyStep_raster]

/-- Counterexample to **C10**: when a corner holds the no-data value, the
seeding phase repairs it by writing the nearest valid neighboring sample into
the borrowed raster, so the raster is not unchanged after `greedy_insert`. -/
theorem C10_raster_cex :
    rNd.value 0 0 = -9999 ∧
    ((greedyInsert rNd 0).map fun st => st.raster.value 0 0) = some 0 := by
  decide

/-- **C10 (amended)**: when none of the four corners holds the no-data value,
`greedy_insert` leaves the borrowed elevation raster untouched: the final
state's raster is the input raster (only `m_used` and `m_token` are ever
written). -/
theorem C10_raster_immutable (r : RasterDouble) (e : ℚ) (st' : MeshState)
    (h00 : isNoData (r.value 0 0) r.noDataValue = false)
    (h01 : isNoData (r.value (r.height - 1) 0) r.noDataValue = false)
    (h11 : isNoData (r.value (r.height - 1) (r.width - 1)) r.noDataValue = false)
    (h10 : isNoData (r.value 0 (r.width - 1)) r.noDataValue = false)
    (hrun : greedyInsert r e = some st') :
    st'.raster = r := by
  have e1 : repairPoint r 0 0 = r := repairPoint_id r 0 0 h00
  have e2 : repairPoint r 0 (r.height - 1) = r := repairPoint_id r 0 (r.height - 1) h01
  have e3 : repairPoint r (r.width - 1) (r.height - 1) = r :=
    repairPoint_id r (r.width - 1) (r.height - 1) h11
  have e4 : repairPoint r (r.width - 1) 0 = r := repairPoint_id r (r.width - 1) 0 h10
  have hseed : (seedState r e).raster = r := by
    unfold seedState
    dsimp only
    rw [e1, e2, e3, e4]
  unfold greedyInsert at hrun
  have := runLoop_raster _ _ _ hrun
  rw [this, foldl_scanTriangle_raster, hseed]

/-- Witness for C10 (amended): on the all-zero 2×2 raster the run terminates
and returns the raster unchanged. -/
theorem C10_raster_immutable_witness :
    isNoData (rTiny.value 0 0) rTiny.noDataValue = false ∧
    ∃ st', greedyInsert rTiny 0 = some st' ∧ st'.raster = rTiny := by
  refine ⟨by decide, ?_⟩
  have hs : (greedyInsert rTiny 0).isSome = true := by decide
  obtain ⟨st', hst⟩ := Option.isSome_iff_exists.mp hs
  exact ⟨st', hst, C10_raster_immutable rTiny 0 st' (by decide) (by decide) (by decide)
    (by decide) hst⟩

/-! ### C6 (amended): per-candidate threshold monotonicity -/

/-- **C6 (amended)**: the end-to-end vertex count is NOT monotone in
`max_error` (see the counterexample on `rNonMono`); what does hold is the
per-candidate monotonicity the spec generalized from: a popped candidate
discarded by the importance check under tolerance `e1` is also discarded,
with the state left unchanged, under any larger tolerance `e2 ≥ e1 ≥ 0`. -/
theorem C6_threshold_monotone (st : MeshState) (c : Candidate) (e1 e2 : ℚ)
    (h0 : 0 ≤ e1) (h12 : e1 ≤ e2)
    (hd : impLtQ c.importance (e1 * (if c.edge then (1 : ℚ)/2 else 1)) = true) :
    impLtQ c.importance (e2 * (if c.edge then (1 : ℚ)/2 else 1)) = true ∧
    greedyStep { st with maxError := e2 } c = { st with maxError := e2 } := by
  have hf : (0 : ℚ) ≤ (if c.edge then (1 : ℚ)/2 else 1) := by split <;> norm_num
  have hmono : e1 * (if c.edge then (1 : ℚ)/2 else 1) ≤
      e2 * (if c.edge then (1 : ℚ)/2 else 1) := mul_le_mul_of_nonneg_right h12 hf
  have h2 : impLtQ c.importance (e2 * (if c.edge then (1 : ℚ)/2 else 1)) = true := by
    cases hi : c.importance with
    | none => rfl
    | some v =>
      rw [hi] at hd
      unfold impLtQ at hd ⊢
      simp only [decide_eq_true_eq] at hd ⊢
      exact lt_of_lt_of_le hd hmono
  exact ⟨h2, greedyStep_discard_importance _ c h2⟩

/-- Witness for C6 (amended) at a concrete candidate and tolerances. -/
theorem C6_threshold_monotone_witness :
    ((0 : ℚ) ≤ 2) ∧ ((2 : ℚ) ≤ 3) ∧
    impLtQ cW6.importance (2 * (if cW6.edge then (1 : ℚ)/2 else 1)) = true ∧
    impLtQ cW6.importance (3 * (if cW6.edge then (1 : ℚ)/2 else 1)) = true :=
  ⟨by norm_num, by norm_num, by decide,
    (C6_threshold_monotone stW1 cW6 2 3 (by norm_num) (by norm_num) (by decide)).1⟩

end TerraModel

namespace TerraModel

/-! ### C3 groundwork: scanners preserve candidate metadata and `CandOK` -/

theorem consider_token (c : Candidate) (x y : ℤ) (z d : ℚ) :
    (c.consider x y z d).token = c.token := by
  unfold Candidate.consider
  split <;> rfl

theorem consider_triangle (c : Candidate) (x y : ℤ) (z d : ℚ) :
    (c.consider x y z d).triangle = c.triangle := by
  unfold Candidate.consider
  split <;> rfl

theorem scanLineAuxH_token (used : ℤ → ℤ → Bool) (rv : ℤ → ℤ → ℚ) (nd : ℚ) (y : ℤ) (dz : ℚ) :
    ∀ (n : ℕ) (x : ℤ) (z0 : ℚ) (c : Candidate),
      (scanLineAuxH used rv nd y dz n x z0 c).token = c.token := by
  intro n
  induction n with
  | zero => intro x z0 c; rfl
  | succ n ih =>
    intro x z0 c
    rw [scanLineAuxH, ih]
    split
    · rfl
    split
    · rfl
    · exact consider_token ..

theorem scanLineAuxH_triangle (used : ℤ → ℤ → Bool) (rv : ℤ → ℤ → ℚ) (nd : ℚ) (y : ℤ)
    (dz : ℚ) :
    ∀ (n : ℕ) (x : ℤ) (z0 : ℚ) (c : Candidate),
      (scanLineAuxH used rv nd y dz n x z0 c).triangle = c.triangle := by
  intro n
  induction n with
  | zero => intro x z0 c; rfl
  | succ n ih =>
    intro x z0 c
    rw [scanLineAuxH, ih]
    split
    · rfl
    split
    · rfl
    · exact consider_triangle ..

theorem scanLineAuxV_token (used : ℤ → ℤ → Bool) (rv : ℤ → ℤ → ℚ) (nd : ℚ) (x : ℤ) (dz : ℚ) :
    ∀ (n : ℕ) (y : ℤ) (z0 : ℚ) (c : Candidate),
      (scanLineAuxV used rv nd x dz n y z0 c).token = c.token := by
  intro n
  induction n with
  | zero => intro y z0 c; rfl
  | succ n ih =>
    intro y z0 c
    rw [scanLineAuxV, ih]
    split
    · rfl
    split
    · rfl
    · exact consider_token ..

theorem scanLineAuxV_triangle (used : ℤ → ℤ → Bool) (rv : ℤ → ℤ → ℚ) (nd : ℚ) (x : ℤ)
    (dz : ℚ) :
    ∀ (n : ℕ) (y : ℤ) (z0 : ℚ) (c : Candidate),
      (scanLineAuxV used rv nd x dz n y z0 c).triangle = c.triangle := by
  intro n
  induction n with
  | zero => intro y z0 c; rfl
  | succ n ih =>
    intro y z0 c
    rw [scanLineAuxV, ih]
    split
    · rfl
    split
    · rfl
    · exact consider_triangle ..

theorem scanTriangleLine_token (used : ℤ → ℤ → Bool) (rv : ℤ → ℤ → ℚ) (nd : ℚ)
    (plane : Plane) (y : ℤ) (x1 x2 : ℚ) (c : Candidate) :
    (scanTriangleLine used rv nd plane y x1 x2 c).token = c.token := by
  unfold scanTriangleLine
  dsimp only
  split
  · rfl
  · exact scanLineAuxH_token ..

theorem scanTriangleLine_triangle (used : ℤ → ℤ → Bool) (rv : ℤ → ℤ → ℚ) (nd : ℚ)
    (plane : Plane) (y : ℤ) (x1 x2 : ℚ) (c : Candidate) :
    (scanTriangleLine used rv nd plane y x1 x2 c).triangle = c.triangle := by
  unfold scanTriangleLine
  dsimp only
  split
  · rfl
  · exact scanLineAuxH_triangle ..

theorem scanLineVertical_token (used : ℤ → ℤ → Bool) (rv : ℤ → ℤ → ℚ) (nd : ℚ)
    (plane : Plane) (x : ℤ) (y1 y2 : ℚ) (c : Candidate) :
    (scanLineVertical used rv nd plane x y1 y2 c).token = c.token := by
  unfold scanLineVertical
  dsimp only
  split
  · rfl
  · exact scanLineAuxV_token ..

theorem scanLineVertical_triangle (used : ℤ → ℤ → Bool) (rv : ℤ → ℤ → ℚ) (nd : ℚ)
    (plane : Plane) (x : ℤ) (y1 y2 : ℚ) (c : Candidate) :
    (scanLineVertical used rv nd plane x y1 y2 c).triangle = c.triangle := by
  unfold scanLineVertical
  dsimp only
  split
  · rfl
  · exact scanLineAuxV_triangle ..

theorem scanLineAuxH_ok (W H : ℤ) (used : ℤ → ℤ → Bool) (rv : ℤ → ℤ → ℚ) (nd : ℚ)
    (y : ℤ) (dz : ℚ) (hy0 : 0 ≤ y) (hyH : y ≤ H) :
    ∀ (n : ℕ) (x : ℤ) (z0 : ℚ) (c : Candidate), 0 ≤ x → x + (n : ℤ) ≤ W + 1 →
      CandOK W H used c → CandOK W H used (scanLineAuxH used rv nd y dz n x z0 c) := by
  intro n
  induction n with
  | zero => intro x z0 c _ _ h; exact h
  | succ n ih =>
    intro x z0 c hx hxn hok
    rw [scanLineAuxH]
    refine ih (x + 1) _ _ (by omega) (by omega) ?_
    split
    · exact hok
    split
    · exact hok
    · rename_i hused hnd
      unfold Candidate.consider
      split
      · intro _
        dsimp only
        refine ⟨by simpa using hused, hx, by omega, hy0, hyH⟩
      · exact hok

theorem scanLineAuxV_ok (W H : ℤ) (used : ℤ → ℤ → Bool) (rv : ℤ → ℤ → ℚ) (nd : ℚ)
    (x : ℤ) (dz : ℚ) (hx0 : 0 ≤ x) (hxW : x ≤ W) :
    ∀ (n : ℕ) (y : ℤ) (z0 : ℚ) (c : Candidate), 0 ≤ y → y + (n : ℤ) ≤ H + 1 →
      CandOK W H used c → CandOK W H used (scanLineAuxV used rv nd x dz n y z0 c) := by
  intro n
  induction n with
  | zero => intro y z0 c _ _ h; exact h
  | succ n ih =>
    intro y z0 c hy hyn hok
    rw [scanLineAuxV]
    refine ih (y + 1) _ _ (by omega) (by omega) ?_
    split
    · exact hok
    split
    · exact hok
    · rename_i hused hnd
      unfold Candidate.consider
      split
      · intro _
        dsimp only
        refine ⟨by simpa using hused, hx0, hxW, hy, by omega⟩
      · exact hok

theorem scanTriangleLine_ok (W H : ℤ) (used : ℤ → ℤ → Bool) (rv : ℤ → ℤ → ℚ) (nd : ℚ)
    (plane : Plane) (y : ℤ) (x1 x2 : ℚ) (c : Candidate)
    (hy0 : 0 ≤ y) (hyH : y ≤ H)
    (hx1 : 0 ≤ x1) (hx1W : x1 ≤ (W : ℚ)) (hx2 : 0 ≤ x2) (hx2W : x2 ≤ (W : ℚ))
    (hok : CandOK W H used c) :
    CandOK W H used (scanTriangleLine used rv nd plane y x1 x2 c) := by
  unfold scanTriangleLine
  dsimp only
  split
  · exact hok
  · have hlo : 0 ≤ ⌈min x1 x2⌉ := Int.ceil_nonneg (le_min hx1 hx2)
    have hhi : ⌊max x1 x2⌋ ≤ W := by
      calc ⌊max x1 x2⌋ ≤ ⌊(W : ℚ)⌋ := Int.floor_le_floor (max_le hx1W hx2W)
      _ = W := Int.floor_intCast W
    exact scanLineAuxH_ok W H used rv nd y plane.a hy0 hyH _ _ _ c hlo (by omega) hok

theorem scanLineVertical_ok (W H : ℤ) (used : ℤ → ℤ → Bool) (rv : ℤ → ℤ → ℚ) (nd : ℚ)
    (plane : Plane) (x : ℤ) (y1 y2 : ℚ) (c : Candidate)
    (hx0 : 0 ≤ x) (hxW : x ≤ W)
    (hy1 : 0 ≤ y1) (hy1H : y1 ≤ (H : ℚ)) (hy2 : 0 ≤ y2) (hy2H : y2 ≤ (H : ℚ))
    (hok : CandOK W H used c) :
    CandOK W H used (scanLineVertical used rv nd plane x y1 y2 c) := by
  unfold scanLineVertical
  dsimp only
  split
  · exact hok
  · have hlo : 0 ≤ ⌈min y1 y2⌉ := Int.ceil_nonneg (le_min hy1 hy2)
    have hhi : ⌊max y1 y2⌋ ≤ H := by
      calc ⌊max y1 y2⌋ ≤ ⌊(H : ℚ)⌋ := Int.floor_le_floor (max_le hy1H hy2H)
      _ = H := Int.floor_intCast H
    exact scanLineAuxV_ok W H used rv nd x plane.b hx0 hxW _ _ _ c hlo (by omega) hok

end TerraModel

namespace TerraModel

/-! ### C3 groundwork: the interior sweep stays inside the raster rectangle -/

theorem convex_bound (a b t A : ℚ) (ha0 : 0 ≤ a) (haA : a ≤ A) (hb0 : 0 ≤ b) (hbA : b ≤ A)
    (ht0 : 0 ≤ t) (ht1 : t ≤ 1) : 0 ≤ a + t * (b - a) ∧ a + t * (b - a) ≤ A := by
  constructor
  · nlinarith [mul_nonneg ht0 hb0, mul_nonneg (sub_nonneg.2 ht1) ha0]
  · nlinarith [mul_nonneg ht0 (sub_nonneg.2 hbA), mul_nonneg (sub_nonneg.2 ht1)
      (sub_nonneg.2 haA)]

theorem interp_bound (a b A : ℚ) (k D : ℤ) (ha0 : 0 ≤ a) (haA : a ≤ A) (hb0 : 0 ≤ b)
    (hbA : b ≤ A) (hD : 0 < D) (hk0 : 0 ≤ k) (hkD : k ≤ D) :
    0 ≤ a + (k : ℚ) * ((b - a) / (D : ℚ)) ∧ a + (k : ℚ) * ((b - a) / (D : ℚ)) ≤ A := by
  have hDq : (0 : ℚ) < (D : ℚ) := by exact_mod_cast hD
  have ht0 : (0 : ℚ) ≤ (k : ℚ) / (D : ℚ) := div_nonneg (by exact_mod_cast hk0) hDq.le
  have ht1 : (k : ℚ) / (D : ℚ) ≤ 1 := (div_le_one hDq).2 (by exact_mod_cast hkD)
  have heq : a + (k : ℚ) * ((b - a) / (D : ℚ)) = a + ((k : ℚ) / (D : ℚ)) * (b - a) := by
    ring
  rw [heq]
  exact convex_bound a b ((k : ℚ) / (D : ℚ)) A ha0 haA hb0 hbA ht0 ht1

theorem sweepRows_token (used : ℤ → ℤ → Bool) (rv : ℤ → ℤ → ℚ) (nd : ℚ) (plane : Plane)
    (dx1 dx2 : ℚ) :
    ∀ (n : ℕ) (y : ℤ) (x1 x2 : ℚ) (c : Candidate),
      (sweepRows used rv nd plane dx1 dx2 n y x1 x2 c).token = c.token := by
  intro n
  induction n with
  | zero => intro y x1 x2 c; rfl
  | succ n ih =>
    intro y x1 x2 c
    rw [sweepRows, ih, scanTriangleLine_token]

theorem sweepRows_triangle (used : ℤ → ℤ → Bool) (rv : ℤ → ℤ → ℚ) (nd : ℚ) (plane : Plane)
    (dx1 dx2 : ℚ) :
    ∀ (n : ℕ) (y : ℤ) (x1 x2 : ℚ) (c : Candidate),
      (sweepRows used rv nd plane dx1 dx2 n y x1 x2 c).triangle = c.triangle := by
  intro n
  induction n with
  | zero => intro y x1 x2 c; rfl
  | succ n ih =>
    intro y x1 x2 c
    rw [sweepRows, ih, scanTriangleLine_triangle]

theorem sweepRows_ok (W H : ℤ) (used : ℤ → ℤ → Bool) (rv : ℤ → ℤ → ℚ) (nd : ℚ)
    (plane : Plane) (dx1 dx2 : ℚ) :
    ∀ (n : ℕ) (y : ℤ) (x1 x2 : ℚ) (c : Candidate),
      (∀ k : ℕ, k < n → 0 ≤ y + (k : ℤ) ∧ y + (k : ℤ) ≤ H ∧
        0 ≤ x1 + (k : ℚ) * dx1 ∧ x1 + (k : ℚ) * dx1 ≤ (W : ℚ) ∧
        0 ≤ x2 + (k : ℚ) * dx2 ∧ x2 + (k : ℚ) * dx2 ≤ (W : ℚ)) →
      CandOK W H used c →
      CandOK W H used (sweepRows used rv nd plane dx1 dx2 n y x1 x2 c) := by
  intro n
  induction n with
  | zero => intro y x1 x2 c _ hok; exact hok
  | succ n ih =>
    intro y x1 x2 c hb hok
    rw [sweepRows]
    refine ih (y + 1) (x1 + dx1) (x2 + dx2) _ ?_ ?_
    · intro k hk
      have hbk := hb (k + 1) (by omega)
      obtain ⟨a1, a2, a3, a4, a5, a6⟩ := hbk
      push_cast at a1 a2 a3 a4 a5 a6 ⊢
      refine ⟨by omega, by omega, by linarith, by linarith, by linarith, by linarith⟩
    · have hb0 := hb 0 (by omega)
      simp only [Nat.cast_zero, add_zero, Nat.cast_ofNat, zero_mul] at hb0
      obtain ⟨b1, b2, b3, b4, b5, b6⟩ := hb0
      exact scanTriangleLine_ok W H used rv nd plane y x1 x2 c b1 b2 b3 b4 b5 b6 hok

theorem interiorScan_token (used : ℤ → ℤ → Bool) (rv : ℤ → ℤ → ℚ) (nd : ℚ) (plane : Plane)
    (q0 q1 q2 : Point) (c : Candidate) :
    (interiorScan used rv nd plane q0 q1 q2 c).token = c.token := by
  unfold interiorScan
  dsimp only
  split
  · rw [sweepRows_token]
    split
    · rw [sweepRows_token]
    · rfl
  · split
    · rw [sweepRows_token]
    · rfl

theorem interiorScan_triangle (used : ℤ → ℤ → Bool) (rv : ℤ → ℤ → ℚ) (nd : ℚ) (plane : Plane)
    (q0 q1 q2 : Point) (c : Candidate) :
    (interiorScan used rv nd plane q0 q1 q2 c).triangle = c.triangle := by
  unfold interiorScan
  dsimp only
  split
  · rw [sweepRows_triangle]
    split
    · rw [sweepRows_triangle]
    · rfl
  · split
    · rw [sweepRows_triangle]
    · rfl

theorem interiorScan_ok (W H : ℤ) (used : ℤ → ℤ → Bool) (rv : ℤ → ℤ → ℚ) (nd : ℚ)
    (plane : Plane) (q0 q1 q2 : Point) (c : Candidate)
    (hs01 : q0.y ≤ q1.y) (hs12 : q1.y ≤ q2.y)
    (h0 : InRect W H q0.x q0.y) (h1 : InRect W H q1.x q1.y) (h2 : InRect W H q2.x q2.y)
    (hok : CandOK W H used c) :
    CandOK W H used (interiorScan used rv nd plane q0 q1 q2 c) := by
  have h0x0 : 0 ≤ q0.x := h0.1
  have h0xW : q0.x ≤ W := h0.2.1
  have h0y0 : 0 ≤ q0.y := h0.2.2.1
  have h0yH : q0.y ≤ H := h0.2.2.2
  have h1x0 : 0 ≤ q1.x := h1.1
  have h1xW : q1.x ≤ W := h1.2.1
  have h1y0 : 0 ≤ q1.y := h1.2.2.1
  have h1yH : q1.y ≤ H := h1.2.2.2
  have h2x0 : 0 ≤ q2.x := h2.1
  have h2xW : q2.x ≤ W := h2.2.1
  have h2y0 : 0 ≤ q2.y := h2.2.2.1
  have h2yH : q2.y ≤ H := h2.2.2.2
  have hupper : q0.y < q1.y →
      ∀ k : ℕ, k < (q1.y - q0.y).toNat → 0 ≤ q0.y + (k : ℤ) ∧ q0.y + (k : ℤ) ≤ H ∧
        0 ≤ (q0.x : ℚ) + (k : ℚ) * (((q1.x : ℚ) - (q0.x : ℚ)) / ((q1.y : ℚ) - (q0.y : ℚ))) ∧
        (q0.x : ℚ) + (k : ℚ) * (((q1.x : ℚ) - (q0.x : ℚ)) / ((q1.y : ℚ) - (q0.y : ℚ))) ≤
          (W : ℚ) ∧
        0 ≤ (q0.x : ℚ) + (k : ℚ) * (((q2.x : ℚ) - (q0.x : ℚ)) / ((q2.y : ℚ) - (q0.y : ℚ))) ∧
        (q0.x : ℚ) + (k : ℚ) * (((q2.x : ℚ) - (q0.x : ℚ)) / ((q2.y : ℚ) - (q0.y : ℚ))) ≤
          (W : ℚ) := by
    intro hQ k hk
    have hkZ : (k : ℤ) < q1.y - q0.y := by omega
    have hb1 := interp_bound (q0.x : ℚ) (q1.x : ℚ) (W : ℚ) (k : ℤ) (q1.y - q0.y)
      (by exact_mod_cast h0x0) (by exact_mod_cast h0xW) (by exact_mod_cast h1x0)
      (by exact_mod_cast h1xW) (by omega) (Int.natCast_nonneg k) (by omega)
    have hb2 := interp_bound (q0.x : ℚ) (q2.x : ℚ) (W : ℚ) (k : ℤ) (q2.y - q0.y)
      (by exact_mod_cast h0x0) (by exact_mod_cast h0xW) (by exact_mod_cast h2x0)
      (by exact_mod_cast h2xW) (by omega) (Int.natCast_nonneg k) (by omega)
    obtain ⟨c1, c2⟩ := hb1
    obtain ⟨c3, c4⟩ := hb2
    push_cast at c1 c2 c3 c4
    exact ⟨by omega, by omega, c1, c2, c3, c4⟩
  have hlower : q1.y < q2.y →
      ∀ k : ℕ, k < (q2.y - q1.y + 1).toNat → 0 ≤ q1.y + (k : ℤ) ∧ q1.y + (k : ℤ) ≤ H ∧
        0 ≤ (q1.x : ℚ) + (k : ℚ) * (((q2.x : ℚ) - (q1.x : ℚ)) / ((q2.y : ℚ) - (q1.y : ℚ))) ∧
        (q1.x : ℚ) + (k : ℚ) * (((q2.x : ℚ) - (q1.x : ℚ)) / ((q2.y : ℚ) - (q1.y : ℚ))) ≤
          (W : ℚ) ∧
        0 ≤ (q0.x : ℚ) + (k : ℚ) * (((q2.x : ℚ) - (q0.x : ℚ)) / ((q2.y : ℚ) - (q0.y : ℚ))) ∧
        (q0.x : ℚ) + (k : ℚ) * (((q2.x : ℚ) - (q0.x : ℚ)) / ((q2.y : ℚ) - (q0.y : ℚ))) ≤
          (W : ℚ) := by
    intro hQ k hk
    have hkZ : (k : ℤ) ≤ q2.y - q1.y := by omega
    have hb1 := interp_bound (q1.x : ℚ) (q2.x : ℚ) (W : ℚ) (k : ℤ) (q2.y - q1.y)
      (by exact_mod_cast h1x0) (by exact_mod_cast h1xW) (by exact_mod_cast h2x0)
      (by exact_mod_cast h2xW) (by omega) (Int.natCast_nonneg k) (by omega)
    have hb2 := interp_bound (q0.x : ℚ) (q2.x : ℚ) (W : ℚ) (k : ℤ) (q2.y - q0.y)
      (by exact_mod_cast h0x0) (by exact_mod_cast h0xW) (by exact_mod_cast h2x0)
      (by exact_mod_cast h2xW) (by omega) (Int.natCast_nonneg k) (by omega)
    obtain ⟨c1, c2⟩ := hb1
    obtain ⟨c3, c4⟩ := hb2
    push_cast at c1 c2 c3 c4
    exact ⟨by omega, by omega, c1, c2, c3, c4⟩
  unfold interiorScan
  dsimp only
  by_cases hup : q1.y ≠ q0.y
  · by_cases hlo : q2.y ≠ q1.y
    · rw [if_pos hlo, if_pos hup]
      refine sweepRows_ok W H used rv nd plane _ _ _ _ _ _ _ (hlower (by omega)) ?_
      exact sweepRows_ok W H used rv nd plane _ _ _ _ _ _ _ (hupper (by omega)) hok
    · rw [if_neg hlo, if_pos hup]
      exact sweepRows_ok W H used rv nd plane _ _ _ _ _ _ _ (hupper (by omega)) hok
  · by_cases hlo : q2.y ≠ q1.y
    · rw [if_pos hlo, if_neg hup]
      exact sweepRows_ok W H used rv nd plane _ _ _ _ _ _ _ (hlower (by omega)) hok
    · rw [if_neg hlo, if_neg hup]
      exact hok

end TerraModel

namespace TerraModel

/-! ### C3 groundwork: ordering and the boundary-edge phase -/

theorem sort3_sorted (a b c : Point) :
    (sort3 a b c).s0.y ≤ (sort3 a b c).s1.y ∧ (sort3 a b c).s1.y ≤ (sort3 a b c).s2.y := by
  unfold sort3 sort3Aux
  split_ifs <;> constructor <;> dsimp only <;> omega

theorem sort3_mem (a b c : Point) :
    ((sort3 a b c).s0 = a ∨ (sort3 a b c).s0 = b ∨ (sort3 a b c).s0 = c) ∧
    ((sort3 a b c).s1 = a ∨ (sort3 a b c).s1 = b ∨ (sort3 a b c).s1 = c) ∧
    ((sort3 a b c).s2 = a ∨ (sort3 a b c).s2 = b ∨ (sort3 a b c).s2 = c) := by
  unfold sort3 sort3Aux
  split_ifs <;> simp

theorem edgeStep_cvTok (used : ℤ → ℤ → Bool) (rv : ℤ → ℤ → ℚ) (nd : ℚ) (plane : Plane)
    (w h : ℤ) (acc : EdgePair) (p q : Point) :
    (edgeStep used rv nd plane w h acc p q).cv.token = acc.cv.token := by
  unfold edgeStep
  split
  · exact scanLineVertical_token ..
  split
  · rfl
  · rfl

theorem edgeStep_chTok (used : ℤ → ℤ → Bool) (rv : ℤ → ℤ → ℚ) (nd : ℚ) (plane : Plane)
    (w h : ℤ) (acc : EdgePair) (p q : Point) :
    (edgeStep used rv nd plane w h acc p q).ch.token = acc.ch.token := by
  unfold edgeStep
  split
  · rfl
  split
  · exact scanTriangleLine_token ..
  · rfl

theorem edgeStep_cvTri (used : ℤ → ℤ → Bool) (rv : ℤ → ℤ → ℚ) (nd : ℚ) (plane : Plane)
    (w h : ℤ) (acc : EdgePair) (p q : Point) :
    (edgeStep used rv nd plane w h acc p q).cv.triangle = acc.cv.triangle := by
  unfold edgeStep
  split
  · exact scanLineVertical_triangle ..
  split
  · rfl
  · rfl

theorem edgeStep_chTri (used : ℤ → ℤ → Bool) (rv : ℤ → ℤ → ℚ) (nd : ℚ) (plane : Plane)
    (w h : ℤ) (acc : EdgePair) (p q : Point) :
    (edgeStep used rv nd plane w h acc p q).ch.triangle = acc.ch.triangle := by
  unfold edgeStep
  split
  · rfl
  split
  · exact scanTriangleLine_triangle ..
  · rfl

theorem edgeStep_ok (W H : ℤ) (used : ℤ → ℤ → Bool) (rv : ℤ → ℤ → ℚ) (nd : ℚ)
    (plane : Plane) (acc : EdgePair) (p q : Point)
    (hp : InRect W H p.x p.y) (hq : InRect W H q.x q.y)
    (hcv : CandOK W H used acc.cv) (hch : CandOK W H used acc.ch) :
    CandOK W H used (edgeStep used rv nd plane W H acc p q).cv ∧
    CandOK W H used (edgeStep used rv nd plane W H acc p q).ch := by
  unfold edgeStep
  split
  · refine ⟨?_, hch⟩
    exact scanLineVertical_ok W H used rv nd plane p.x _ _ acc.cv hp.1 hp.2.1
      (by exact_mod_cast hp.2.2.1) (by exact_mod_cast hp.2.2.2)
      (by exact_mod_cast hq.2.2.1) (by exact_mod_cast hq.2.2.2) hcv
  split
  · refine ⟨hcv, ?_⟩
    exact scanTriangleLine_ok W H used rv nd plane p.y _ _ acc.ch hp.2.2.1 hp.2.2.2
      (by exact_mod_cast hp.1) (by exact_mod_cast hp.2.1)
      (by exact_mod_cast hq.1) (by exact_mod_cast hq.2.1) hch
  · exact ⟨hcv, hch⟩

theorem edgeScan_meta (st : MeshState) (t : Triangle) :
    (edgeScan st t).cv.token = st.counter ∧ (edgeScan st t).ch.token = st.counter + 1 ∧
    (edgeScan st t).cv.triangle = t ∧ (edgeScan st t).ch.triangle = t := by
  unfold edgeScan
  dsimp only
  refine ⟨?_, ?_, ?_, ?_⟩ <;>
    simp only [edgeStep_cvTok, edgeStep_chTok, edgeStep_cvTri, edgeStep_chTri]

theorem edgeScan_ok (st : MeshState) (t : Triangle)
    (htri : TriInRect (st.raster.width - 1) (st.raster.height - 1) t) :
    CandOK (st.raster.width - 1) (st.raster.height - 1) st.used (edgeScan st t).cv ∧
    CandOK (st.raster.width - 1) (st.raster.height - 1) st.used (edgeScan st t).ch := by
  have hmem := sort3_mem t.p1 t.p2 t.p3
  have hin : ∀ p : Point, (p = t.p1 ∨ p = t.p2 ∨ p = t.p3) →
      InRect (st.raster.width - 1) (st.raster.height - 1) p.x p.y := by
    rintro p (rfl | rfl | rfl)
    · exact htri.1
    · exact htri.2.1
    · exact htri.2.2
  have h0 := hin _ hmem.1
  have h1 := hin _ hmem.2.1
  have h2 := hin _ hmem.2.2
  unfold edgeScan
  dsimp only
  set W := st.raster.width - 1 with hW
  set H := st.raster.height - 1 with hH
  set used := st.used with hused
  set rv := st.raster.value with hrv
  set nd := st.raster.noDataValue with hnd
  set pl := computePlane t st.raster with hpl
  set s0 := (sort3 t.p1 t.p2 t.p3).s0 with hs0
  set s1 := (sort3 t.p1 t.p2 t.p3).s1 with hs1d
  set s2 := (sort3 t.p1 t.p2 t.p3).s2 with hs2d
  set e0 : EdgePair :=
    ⟨⟨0, 0, 0, none, st.counter, t, false⟩, ⟨0, 0, 0, none, st.counter + 1, t, false⟩⟩
    with he0
  have hstart : CandOK W H used e0.cv ∧ CandOK W H used e0.ch :=
    ⟨fun hi => absurd rfl hi, fun hi => absurd rfl hi⟩
  have hstep1 := edgeStep_ok W H used rv nd pl e0 s0 s1 h0 h1 hstart.1 hstart.2
  have hstep2 := edgeStep_ok W H used rv nd pl (edgeStep used rv nd pl W H e0 s0 s1) s1 s2
    h1 h2 hstep1.1 hstep1.2
  exact edgeStep_ok W H used rv nd pl
    (edgeStep used rv nd pl W H (edgeStep used rv nd pl W H e0 s0 s1) s1 s2) s2 s0
    h2 h0 hstep2.1 hstep2.2

end TerraModel

namespace TerraModel

/-! ### C3: the effect of one `scan_triangle` call -/

theorem setGrid_or {α : Type} (g : ℤ → ℤ → α) (y0 x0 : ℤ) (v : α) (y x : ℤ) :
    setGrid g y0 x0 v y x = g y x ∨ setGrid g y0 x0 v y x = v := by
  unfold setGrid
  split
  · exact Or.inr rfl
  · exact Or.inl rfl

theorem scanTriangle_out (st : MeshState) (t : Triangle)
    (hw : 0 < st.raster.width) (hh : 0 < st.raster.height)
    (htri : TriInRect (st.raster.width - 1) (st.raster.height - 1) t) :
    ScanOut st (scanTriangle st t) t := by
  have hedgeok := edgeScan_ok st t htri
  have hmeta := edgeScan_meta st t
  have hsorted := sort3_sorted t.p1 t.p2 t.p3
  have hmem := sort3_mem t.p1 t.p2 t.p3
  have hin : ∀ p : Point, (p = t.p1 ∨ p = t.p2 ∨ p = t.p3) →
      InRect (st.raster.width - 1) (st.raster.height - 1) p.x p.y := by
    rintro p (rfl | rfl | rfl)
    · exact htri.1
    · exact htri.2.1
    · exact htri.2.2
  have hin0 := hin _ hmem.1
  have hin1 := hin _ hmem.2.1
  have hin2 := hin _ hmem.2.2
  unfold scanTriangle
  dsimp only
  by_cases hedge : (edgeScan st t).cv.importance ≠ none ∨ (edgeScan st t).ch.importance ≠ none
  · rw [if_pos hedge]
    refine ⟨rfl, rfl, rfl, rfl, by dsimp only; omega, ?_, ?_⟩
    · refine ⟨_, rfl, ?_, ?_, ?_⟩
      · by_cases hv : (edgeScan st t).cv.importance ≠ none <;>
          by_cases hc : (edgeScan st t).ch.importance ≠ none
        · rw [if_pos hv, if_pos hc]; simp
        · rw [if_pos hv, if_neg hc]; simp
        · rw [if_neg hv, if_pos hc]; simp
        · rw [if_neg hv, if_neg hc]; simp
      · by_cases hv : (edgeScan st t).cv.importance ≠ none <;>
          by_cases hc : (edgeScan st t).ch.importance ≠ none
        · rw [if_pos hv, if_pos hc]
          refine List.pairwise_cons.2 ⟨?_, List.pairwise_singleton _ _⟩
          intro b hb
          have hb2 : b = { (edgeScan st t).ch with edge := true } := by simpa using hb
          subst hb2
          show (edgeScan st t).cv.token ≠ (edgeScan st t).ch.token
          rw [hmeta.1, hmeta.2.1]
          omega
        · rw [if_pos hv, if_neg hc]; simp
        · rw [if_neg hv, if_pos hc]; simp
        · rw [if_neg hv, if_neg hc]; simp
      · intro c hc2
        have hcv_case : ∀ hcin : c = { (edgeScan st t).cv with edge := true },
            st.counter ≤ c.token ∧ c.token < st.counter + 2 ∧
            CandOK (st.raster.width - 1) (st.raster.height - 1) st.used c ∧
            c.triangle = t := by
          intro hcin
          subst hcin
          refine ⟨?_, ?_, hedgeok.1, hmeta.2.2.1⟩
          · show st.counter ≤ (edgeScan st t).cv.token
            rw [hmeta.1]
          · show (edgeScan st t).cv.token < st.counter + 2
            rw [hmeta.1]
            omega
        have hch_case : ∀ hcin : c = { (edgeScan st t).ch with edge := true },
            st.counter ≤ c.token ∧ c.token < st.counter + 2 ∧
            CandOK (st.raster.width - 1) (st.raster.height - 1) st.used c ∧
            c.triangle = t := by
          intro hcin
          subst hcin
          refine ⟨?_, ?_, hedgeok.2, hmeta.2.2.2⟩
          · show st.counter ≤ (edgeScan st t).ch.token
            rw [hmeta.2.1]
            omega
          · show (edgeScan st t).ch.token < st.counter + 2
            rw [hmeta.2.1]
            omega
        rcases List.mem_append.1 hc2 with h' | h' <;>
        · split at h'
          · simp only [List.mem_singleton] at h'
            first
            | exact hcv_case h'
            | exact hch_case h'
          · simp at h'
    · intro y x
      dsimp only
      by_cases hv : (edgeScan st t).cv.importance ≠ none <;>
        by_cases hc : (edgeScan st t).ch.importance ≠ none
      · rw [if_pos hv, if_pos hc]
        rcases setGrid_or (setGrid st.token (edgeScan st t).cv.y (edgeScan st t).cv.x
            (edgeScan st t).cv.token) (edgeScan st t).ch.y (edgeScan st t).ch.x
            (edgeScan st t).ch.token y x with h | h
        · rw [h]
          rcases setGrid_or st.token (edgeScan st t).cv.y (edgeScan st t).cv.x
              (edgeScan st t).cv.token y x with h2 | h2
          · exact Or.inl h2
          · rw [h2, hmeta.1]
            exact Or.inr le_rfl
        · rw [h, hmeta.2.1]
          exact Or.inr (by omega)
      · rw [if_pos hv, if_neg hc]
        rcases setGrid_or st.token (edgeScan st t).cv.y (edgeScan st t).cv.x
            (edgeScan st t).cv.token y x with h | h
        · exact Or.inl h
        · rw [h, hmeta.1]
          exact Or.inr le_rfl
      · rw [if_neg hv, if_pos hc]
        rcases setGrid_or st.token (edgeScan st t).ch.y (edgeScan st t).ch.x
            (edgeScan st t).ch.token y x with h | h
        · exact Or.inl h
        · rw [h, hmeta.2.1]
          exact Or.inr (by omega)
      · rw [if_neg hv, if_neg hc]
        exact Or.inl rfl
  · rw [if_neg hedge]
    have hItok : (interiorScan st.used st.raster.value st.raster.noDataValue
        (computePlane t st.raster) (sort3 t.p1 t.p2 t.p3).s0 (sort3 t.p1 t.p2 t.p3).s1
        (sort3 t.p1 t.p2 t.p3).s2
        ⟨0, 0, 0, none, st.counter + 2, t, false⟩).token = st.counter + 2 := by
      rw [interiorScan_token]
    have hItri : (interiorScan st.used st.raster.value st.raster.noDataValue
        (computePlane t st.raster) (sort3 t.p1 t.p2 t.p3).s0 (sort3 t.p1 t.p2 t.p3).s1
        (sort3 t.p1 t.p2 t.p3).s2
        ⟨0, 0, 0, none, st.counter + 2, t, false⟩).triangle = t := by
      rw [interiorScan_triangle]
    have hIok : CandOK (st.raster.width - 1) (st.raster.height - 1) st.used
        (interiorScan st.used st.raster.value st.raster.noDataValue
          (computePlane t st.raster) (sort3 t.p1 t.p2 t.p3).s0 (sort3 t.p1 t.p2 t.p3).s1
          (sort3 t.p1 t.p2 t.p3).s2 ⟨0, 0, 0, none, st.counter + 2, t, false⟩) :=
      interiorScan_ok _ _ st.used st.raster.value st.raster.noDataValue _
        _ _ _ _ hsorted.1 hsorted.2 hin0 hin1 hin2 (fun hi => absurd rfl hi)
    refine ⟨rfl, rfl, rfl, rfl, by dsimp only; omega, ?_, ?_⟩
    · refine ⟨_, rfl, by simp, List.pairwise_singleton _ _, ?_⟩
      intro c hc2
      simp only [List.mem_singleton] at hc2
      subst hc2
      refine ⟨by rw [hItok]; omega, ?_, hIok, hItri⟩
      rw [hItok]
      show st.counter + 2 < st.counter + 3
      omega
    · intro y x
      dsimp only
      rcases setGrid_or st.token
          (interiorScan st.used st.raster.value st.raster.noDataValue
            (computePlane t st.raster) (sort3 t.p1 t.p2 t.p3).s0 (sort3 t.p1 t.p2 t.p3).s1
            (sort3 t.p1 t.p2 t.p3).s2 ⟨0, 0, 0, none, st.counter + 2, t, false⟩).y
          (interiorScan st.used st.raster.value st.raster.noDataValue
            (computePlane t st.raster) (sort3 t.p1 t.p2 t.p3).s0 (sort3 t.p1 t.p2 t.p3).s1
            (sort3 t.p1 t.p2 t.p3).s2 ⟨0, 0, 0, none, st.counter + 2, t, false⟩).x
          (interiorScan st.used st.raster.value st.raster.noDataValue
            (computePlane t st.raster) (sort3 t.p1 t.p2 t.p3).s0 (sort3 t.p1 t.p2 t.p3).s1
            (sort3 t.p1 t.p2 t.p3).s2 ⟨0, 0, 0, none, st.counter + 2, t, false⟩).token
          y x with h | h
      · exact Or.inl h
      · rw [h, hItok]
        exact Or.inr (by omega)

end TerraModel

namespace TerraModel

/-! ### C3: invariant preservation and the measure -/

theorem Inv_scanTriangle (st : MeshState) (t : Triangle) (hInv : Inv st)
    (htri : TriInRect (st.raster.width - 1) (st.raster.height - 1) t) :
    Inv (scanTriangle st t) := by
  have so := scanTriangle_out st t hInv.wpos hInv.hpos htri
  obtain ⟨l, hl, hlen, hpw, hmemn⟩ := so.news
  constructor
  · rw [so.raster_eq]; exact hInv.wpos
  · rw [so.raster_eq]; exact hInv.hpos
  · intro c hc
    rw [hl] at hc
    rcases List.mem_append.1 hc with h | h
    · exact lt_trans (hInv.tokLt c h) so.ctr_lt
    · exact (hmemn c h).2.1
  · rw [hl]
    refine List.pairwise_append.2 ⟨hInv.tokNodup, hpw, ?_⟩
    intro a ha b hb
    have h1 := hInv.tokLt a ha
    have h2 := (hmemn b hb).1
    omega
  · intro c hc himp htok
    rw [hl] at hc
    rw [so.used_eq, so.raster_eq]
    rcases List.mem_append.1 hc with h | h
    · rcases so.tok_w c.y c.x with hwr | hwr
      · rw [hwr] at htok
        exact hInv.fresh c h himp htok
      · exfalso
        rw [htok] at hwr
        have := hInv.tokLt c h
        omega
    · exact (hmemn c h).2.2.1 himp
  · intro c hc
    rw [hl] at hc
    rw [so.raster_eq]
    rcases List.mem_append.1 hc with h | h
    · exact hInv.triRect c h
    · rw [(hmemn c h).2.2.2]
      exact htri

theorem unusedCount_congr (st st1 : MeshState) (hw : st1.raster.width = st.raster.width)
    (hh : st1.raster.height = st.raster.height) (hu : st1.used = st.used) :
    unusedCount st1 = unusedCount st := by
  unfold unusedCount
  rw [hw, hh, hu]

theorem unusedCount_foldl_scan (l : List Triangle) (s : MeshState) :
    unusedCount (List.foldl scanTriangle s l) = unusedCount s :=
  unusedCount_congr _ _ (by rw [foldl_scanTriangle_raster]) (by rw [foldl_scanTriangle_raster])
    (foldl_scanTriangle_used l s)

theorem unusedCount_setGrid (st st1 : MeshState) (y x : ℤ)
    (hw : st1.raster.width = st.raster.width) (hh : st1.raster.height = st.raster.height)
    (hu1 : st1.used = setGrid st.used y x true)
    (hin : InRect (st.raster.width - 1) (st.raster.height - 1) x y)
    (hu : st.used y x = false) :
    unusedCount st1 + 1 = unusedCount st := by
  unfold unusedCount
  rw [hw, hh, hu1]
  have hmem : (y, x) ∈ ((Finset.Icc 0 (st.raster.height - 1)) ×ˢ
      (Finset.Icc 0 (st.raster.width - 1))).filter
      (fun p : ℤ × ℤ => st.used p.1 p.2 = false) := by
    rw [Finset.mem_filter, Finset.mem_product, Finset.mem_Icc, Finset.mem_Icc]
    exact ⟨⟨⟨hin.2.2.1, hin.2.2.2⟩, hin.1, hin.2.1⟩, hu⟩
  have hset : ((Finset.Icc 0 (st.raster.height - 1)) ×ˢ
      (Finset.Icc 0 (st.raster.width - 1))).filter
      (fun p : ℤ × ℤ => setGrid st.used y x true p.1 p.2 = false) =
      (((Finset.Icc 0 (st.raster.height - 1)) ×ˢ
        (Finset.Icc 0 (st.raster.width - 1))).filter
        (fun p : ℤ × ℤ => st.used p.1 p.2 = false)).erase (y, x) := by
    ext p
    rw [Finset.mem_erase, Finset.mem_filter, Finset.mem_filter]
    constructor
    · rintro ⟨hp, hval⟩
      by_cases hpe : p = (y, x)
      · exfalso
        subst hpe
        rw [setGrid_self] at hval
        exact absurd hval (by simp)
      · have hne : ¬(p.1 = y ∧ p.2 = x) := by
          rintro ⟨a1, a2⟩
          exact hpe (Prod.ext a1 a2)
        rw [setGrid_ne _ _ _ _ _ _ hne] at hval
        exact ⟨hpe, hp, hval⟩
    · rintro ⟨hne, hp, hval⟩
      refine ⟨hp, ?_⟩
      have hne2 : ¬(p.1 = y ∧ p.2 = x) := by
        rintro ⟨a1, a2⟩
        exact hne (Prod.ext a1 a2)
      rw [setGrid_ne _ _ _ _ _ _ hne2]
      exact hval
  rw [hset, Finset.card_erase_of_mem hmem]
  have hpos : 0 < (((Finset.Icc 0 (st.raster.height - 1)) ×ˢ
      (Finset.Icc 0 (st.raster.width - 1))).filter
      (fun p : ℤ × ℤ => st.used p.1 p.2 = false)).card :=
    Finset.card_pos.2 ⟨_, hmem⟩
  omega

theorem foldl_scan_inv : ∀ (l : List Triangle) (s : MeshState), Inv s →
    (∀ t ∈ l, TriInRect (s.raster.width - 1) (s.raster.height - 1) t) →
    Inv (List.foldl scanTriangle s l) ∧
    (List.foldl scanTriangle s l).candidates.length ≤ s.candidates.length + 2 * l.length := by
  intro l
  induction l with
  | nil => intro s hInv _; exact ⟨hInv, by simp⟩
  | cons t ts ih =>
    intro s hInv hl
    rw [List.foldl_cons]
    have hmt := hl t (List.mem_cons_self t ts)
    have hout := scanTriangle_out s t hInv.wpos hInv.hpos hmt
    have hInv2 := Inv_scanTriangle s t hInv hmt
    have hts : ∀ u ∈ ts, TriInRect ((scanTriangle s t).raster.width - 1)
        ((scanTriangle s t).raster.height - 1) u := by
      intro u hu
      rw [hout.raster_eq]
      exact hl u (List.mem_cons_of_mem t hu)
    obtain ⟨hi, hlenr⟩ := ih (scanTriangle s t) hInv2 hts
    refine ⟨hi, ?_⟩
    obtain ⟨l2, hl2, hlen2, _, _⟩ := hout.news
    have hlen1 : (scanTriangle s t).candidates.length ≤ s.candidates.length + 2 := by
      rw [hl2, List.length_append]
      omega
    have : ts.length + 1 = (t :: ts).length := by simp
    omega

end TerraModel

namespace TerraModel

/-! ### C3: the pop loop terminates -/

theorem grabGreatest_ne_none (c : Candidate) (cs : List Candidate) :
    grabGreatest (c :: cs) ≠ none := by
  unfold grabGreatest
  split
  · simp
  · split <;> simp

theorem grabGreatest_perm : ∀ (l : List Candidate) (c : Candidate) (rest : List Candidate),
    grabGreatest l = some (c, rest) → l.Perm (c :: rest) := by
  intro l
  induction l with
  | nil => intro c rest h; exact absurd h (by simp [grabGreatest])
  | cons a as ih =>
    intro c rest h
    unfold grabGreatest at h
    cases hg : grabGreatest as with
    | none =>
      have has : as = [] := by
        cases as with
        | nil => rfl
        | cons x xs => exact absurd hg (grabGreatest_ne_none x xs)
      subst has
      rw [hg] at h
      simp only [Option.some.injEq, Prod.mk.injEq] at h
      obtain ⟨rfl, rfl⟩ := h
      exact List.Perm.refl _
    | some pr =>
      obtain ⟨b, brest⟩ := pr
      rw [hg] at h
      dsimp only at h
      split at h
      · simp only [Option.some.injEq, Prod.mk.injEq] at h
        obtain ⟨rfl, rfl⟩ := h
        exact ((ih b brest hg).cons a).trans (List.Perm.swap b a brest)
      · simp only [Option.some.injEq, Prod.mk.injEq] at h
        obtain ⟨rfl, rfl⟩ := h
        exact List.Perm.refl _

theorem Inv_pop (st : MeshState) (c : Candidate) (rest : List Candidate) (hInv : Inv st)
    (hg : grabGreatest st.candidates = some (c, rest)) :
    Inv { st with candidates := rest } ∧
    st.candidates.length = rest.length + 1 ∧
    (∀ d ∈ rest, d.token ≠ c.token) ∧
    (c.importance ≠ none → st.token c.y c.x = c.token →
      st.used c.y c.x = false ∧
      InRect (st.raster.width - 1) (st.raster.height - 1) c.x c.y) ∧
    TriInRect (st.raster.width - 1) (st.raster.height - 1) c.triangle := by
  have hperm := grabGreatest_perm _ _ _ hg
  have hmemc : c ∈ st.candidates := hperm.symm.subset (List.mem_cons_self c rest)
  have hsub : ∀ d ∈ rest, d ∈ st.candidates := fun d hd =>
    hperm.symm.subset (List.mem_cons_of_mem c hd)
  have hpw : (c :: rest).Pairwise (fun a b => a.token ≠ b.token) :=
    (hperm.pairwise_iff (fun h => Ne.symm h)).1 hInv.tokNodup
  refine ⟨?_, ?_, ?_, hInv.fresh c hmemc, hInv.triRect c hmemc⟩
  · exact ⟨hInv.wpos, hInv.hpos, fun d hd => hInv.tokLt d (hsub d hd),
      (List.pairwise_cons.1 hpw).2, fun d hd => hInv.fresh d (hsub d hd),
      fun d hd => hInv.triRect d (hsub d hd)⟩
  · simpa using hperm.length_eq
  · intro d hd
    exact Ne.symm ((List.pairwise_cons.1 hpw).1 d hd)

theorem greedyStep_measure (st : MeshState) (c : Candidate) (hInv : Inv st)
    (hfresh : c.importance ≠ none → st.token c.y c.x = c.token →
      st.used c.y c.x = false ∧
      InRect (st.raster.width - 1) (st.raster.height - 1) c.x c.y)
    (htric : TriInRect (st.raster.width - 1) (st.raster.height - 1) c.triangle)
    (hne : ∀ d ∈ st.candidates, d.token ≠ c.token) :
    Inv (greedyStep st c) ∧ mu (greedyStep st c) ≤ mu st := by
  by_cases h1 : impLtQ c.importance (st.maxError * (if c.edge then (1 : ℚ)/2 else 1)) = true
  · rw [greedyStep_discard_importance st c h1]
    exact ⟨hInv, le_refl _⟩
  · by_cases h2 : st.token c.y c.x ≠ c.token
    · have hid : greedyStep st c = st := by
        unfold greedyStep
        rw [if_neg h1, if_pos h2]
      rw [hid]
      exact ⟨hInv, le_refl _⟩
    · push_neg at h2
      have himp : c.importance ≠ none := by
        intro hn
        rw [hn] at h1
        exact h1 rfl
      obtain ⟨husd, hin⟩ := hfresh himp h2
      have hstep : greedyStep st c = List.foldl scanTriangle { st with used := setGrid st.used c.y c.x true, triangles := splitTriangle st.triangles c.triangle ⟨c.x, c.y⟩ } (childTriangles c.triangle ⟨c.x, c.y⟩) := by
        unfold greedyStep
        rw [if_neg h1, if_neg (by simp [h2])]
      rw [hstep]
      set st1 : MeshState := { st with used := setGrid st.used c.y c.x true, triangles := splitTriangle st.triangles c.triangle ⟨c.x, c.y⟩ } with hst1
      have husedeq : st1.used = setGrid st.used c.y c.x true := by rw [hst1]
      have hInv1 : Inv st1 := by
        refine ⟨hInv.wpos, hInv.hpos, hInv.tokLt, hInv.tokNodup, ?_, hInv.triRect⟩
        intro d hd hdimp hdtok
        have hdtok2 : st.token d.y d.x = d.token := hdtok
        by_cases hcell : d.y = c.y ∧ d.x = c.x
        · exfalso
          obtain ⟨e1, e2⟩ := hcell
          rw [e1, e2, h2] at hdtok2
          exact hne d hd hdtok2.symm
        · have hdf := hInv.fresh d hd hdimp hdtok2
          refine ⟨?_, hdf.2⟩
          show st1.used d.y d.x = false
          rw [husedeq, setGrid_ne _ _ _ _ _ _ hcell]
          exact hdf.1
      have hch : ∀ u ∈ childTriangles c.triangle ⟨c.x, c.y⟩,
          TriInRect (st1.raster.width - 1) (st1.raster.height - 1) u := by
        intro u hu
        simp only [childTriangles, List.mem_cons, List.not_mem_nil, or_false] at hu
        rcases hu with rfl | rfl | rfl
        · exact ⟨htric.1, htric.2.1, hin⟩
        · exact ⟨htric.2.1, htric.2.2, hin⟩
        · exact ⟨htric.2.2, htric.1, hin⟩
      obtain ⟨hInvF, hlenF⟩ := foldl_scan_inv (childTriangles c.triangle ⟨c.x, c.y⟩) st1
        hInv1 hch
      refine ⟨hInvF, ?_⟩
      have hcnt := unusedCount_foldl_scan (childTriangles c.triangle ⟨c.x, c.y⟩) st1
      have hdec : unusedCount st1 + 1 = unusedCount st :=
        unusedCount_setGrid st st1 c.y c.x (by rw [hst1]) (by rw [hst1]) husedeq hin husd
      have hchlen : (childTriangles c.triangle ⟨c.x, c.y⟩).length = 3 := rfl
      rw [hchlen] at hlenF
      have hlen1 : st1.candidates.length = st.candidates.length := by rw [hst1]
      unfold mu
      rw [hcnt]
      omega

theorem runLoop_isSome : ∀ (n : ℕ) (st : MeshState), Inv st → mu st ≤ n →
    (runLoop n st).isSome = true := by
  intro n
  induction n with
  | zero =>
    intro st hInv hmu
    have hlen : st.candidates.length = 0 := by
      unfold mu at hmu
      omega
    have hempty : st.candidates = [] := List.length_eq_zero.1 hlen
    unfold runLoop
    rw [if_pos (by rw [hempty]; rfl)]
    rfl
  | succ n ih =>
    intro st hInv hmu
    unfold runLoop
    cases hg : grabGreatest st.candidates with
    | none => rfl
    | some pr =>
      obtain ⟨c, rest⟩ := pr
      dsimp only
      obtain ⟨hInv2, hlen, hne, hfresh, htric⟩ := Inv_pop st c rest hInv hg
      obtain ⟨hInv3, hmu3⟩ := greedyStep_measure { st with candidates := rest } c hInv2
        hfresh htric hne
      refine ih _ hInv3 ?_
      have hueq : unusedCount { st with candidates := rest } = unusedCount st := rfl
      have hmu2 : mu { st with candidates := rest } + 1 = mu st := by
        unfold mu
        rw [hueq]
        dsimp only
        omega
      omega

theorem repairPoint_width (r : RasterDouble) (x y : ℤ) :
    (repairPoint r x y).width = r.width := by
  unfold repairPoint
  split
  · split <;> rfl
  · rfl

theorem repairPoint_height (r : RasterDouble) (x y : ℤ) :
    (repairPoint r x y).height = r.height := by
  unfold repairPoint
  split
  · split <;> rfl
  · rfl

theorem seedState_width (r : RasterDouble) (e : ℚ) :
    (seedState r e).raster.width = r.width := by
  unfold seedState
  dsimp only
  rw [repairPoint_width, repairPoint_width, repairPoint_width, repairPoint_width]

theorem seedState_height (r : RasterDouble) (e : ℚ) :
    (seedState r e).raster.height = r.height := by
  unfold seedState
  dsimp only
  rw [repairPoint_height, repairPoint_height, repairPoint_height, repairPoint_height]

/-- **C3**: for every raster with positive dimensions and every non-negative
`max_error`, `greedy_insert` terminates: `greedyInsert`'s fuel
`7*W*H + |initial queue|` dominates the measure `7 * (unused cells) + |queue|`,
which strictly decreases at every pop (each accepted insertion marks a
previously-unused in-bounds cell used, paying for the at most 6 candidates
pushed by re-scanning the three children; a discarded pop shrinks the
queue), so the loop empties the candidate list and returns a final state. -/
theorem C3_termination (r : RasterDouble) (e : ℚ)
    (hw : 0 < r.width) (hh : 0 < r.height) (he : 0 ≤ e) :
    (greedyInsert r e).isSome = true := by
  unfold greedyInsert
  dsimp only
  have hsw : (seedState r e).raster.width = r.width := seedState_width r e
  have hsh : (seedState r e).raster.height = r.height := seedState_height r e
  have hInv0 : Inv (seedState r e) := by
    refine ⟨by rw [hsw]; exact hw, by rw [hsh]; exact hh, ?_, List.Pairwise.nil, ?_, ?_⟩
    · intro c hc; exact absurd hc (List.not_mem_nil c)
    · intro c hc; exact absurd hc (List.not_mem_nil c)
    · intro c hc; exact absurd hc (List.not_mem_nil c)
  have htris : ∀ t ∈ (seedState r e).triangles,
      TriInRect ((seedState r e).raster.width - 1) ((seedState r e).raster.height - 1) t := by
    intro t ht
    rw [hsw, hsh]
    have hteq : (seedState r e).triangles = initMesh r.width r.height := rfl
    rw [hteq] at ht
    simp only [initMesh, List.mem_cons, List.not_mem_nil, or_false] at ht
    rcases ht with rfl | rfl
    · refine ⟨⟨?_, ?_, ?_, ?_⟩, ⟨?_, ?_, ?_, ?_⟩, ⟨?_, ?_, ?_, ?_⟩⟩ <;> dsimp only <;> omega
    · refine ⟨⟨?_, ?_, ?_, ?_⟩, ⟨?_, ?_, ?_, ?_⟩, ⟨?_, ?_, ?_, ?_⟩⟩ <;> dsimp only <;> omega
  obtain ⟨hInv1, _⟩ := foldl_scan_inv (seedState r e).triangles (seedState r e) hInv0 htris
  have hbound : unusedCount (List.foldl scanTriangle (seedState r e)
      (seedState r e).triangles) ≤ (r.width * r.height).toNat := by
    rw [unusedCount_foldl_scan]
    unfold unusedCount
    rw [hsw, hsh]
    calc ((Finset.Icc 0 (r.height - 1) ×ˢ Finset.Icc 0 (r.width - 1)).filter
          fun p : ℤ × ℤ => (seedState r e).used p.1 p.2 = false).card
        ≤ (Finset.Icc 0 (r.height - 1) ×ˢ Finset.Icc 0 (r.width - 1)).card :=
          Finset.card_filter_le _ _
      _ = (Finset.Icc (0:ℤ) (r.height - 1)).card * (Finset.Icc (0:ℤ) (r.width - 1)).card :=
          Finset.card_product _ _
      _ = (r.height - 1 + 1 - 0).toNat * (r.width - 1 + 1 - 0).toNat := by
          rw [Int.card_Icc, Int.card_Icc]
      _ = r.height.toNat * r.width.toNat := by
          congr 1 <;> omega
      _ = (r.width * r.height).toNat := by
          have hcast : r.width * r.height = ((r.width.toNat * r.height.toNat : ℕ) : ℤ) := by
            push_cast
            rw [Int.toNat_of_nonneg hw.le, Int.toNat_of_nonneg hh.le]
          rw [hcast, Int.toNat_natCast]
          exact Nat.mul_comm _ _
  refine runLoop_isSome _ _ hInv1 ?_
  unfold mu
  omega

/-- Witness for C3 at the all-zero 2×2 raster. -/
theorem C3_termination_witness :
    0 < rTiny.width ∧ 0 < rTiny.height ∧ (0 : ℚ) ≤ 0 ∧
    (greedyInsert rTiny 0).isSome = true :=
  ⟨by decide, by decide, le_refl 0, C3_termination rTiny 0 (by decide) (by decide) (le_refl 0)⟩

end TerraModel
